import Mathlib

/-!
Shallow embedding of the WhatsApp message-status tracker
(`track_message_status.py`) and proofs about its reconciliation,
extraction, pagination, retry and persistence logic.

Conventions of the embedding:
* Python `dict`/JSON payloads are modelled by the inductive `JValue`;
  a Python `dict` is an association list of string keys (first match wins;
  real Python dicts cannot carry duplicate keys).
* Python exceptions are modelled with `Except String`; a `.error` value
  corresponds to an exception propagating out of the modelled code.
* Machine integers are `Int` (Python ints are unbounded); times handed out
  by `datetime.now` are abstracted as `Int` ticks.
* `float` jitter in the retry backoff is modelled over `Rat`.
-/

/-- JSON-like Python value (payload trees, webhook bodies, ...). -/
inductive JValue where
  | null : JValue
  | bool : Bool → JValue
  | num : Int → JValue
  | str : String → JValue
  | arr : List JValue → JValue
  | obj : List (String × JValue) → JValue
deriving Repr

/-- Python truthiness of a JSON-like value (`bool(v)`). -/
def truthy : JValue → Bool
  | .null => false
  | .bool b => b
  | .num n => n != 0
  | .str s => s != ""
  | .arr xs => !xs.isEmpty
  | .obj fs => !fs.isEmpty

/-- Python `a or b` on JSON-like values. -/
def pyOr (a b : JValue) : JValue := if truthy a then a else b

/-- Key lookup in a Python dict, first match wins. -/
def jlookup : List (String × JValue) → String → Option JValue
  | [], _ => none
  | (k, v) :: rest, key => if k == key then some v else jlookup rest key

/-- Total `d.get(key, default)` for a value already known to be a dict;
on a non-dict receiver it returns the default (callers below only use it
after an `isinstance(_, dict)`-style check, where Python cannot raise). -/
def jget (v : JValue) (key : String) (default : JValue) : JValue :=
  match v with
  | .obj fs => (jlookup fs key).getD default
  | _ => default

/-- `v.get(key)` with Python exception semantics: raises `AttributeError`
when the receiver is not a dict, otherwise returns the value or `None`. -/
def pyGetE (v : JValue) (key : String) : Except String JValue :=
  match v with
  | .obj fs => .ok ((jlookup fs key).getD .null)
  | _ => .error ("AttributeError: object has no attribute get " ++ key)

/-- `v.get(key, default)` with Python exception semantics. -/
def pyGetDE (v : JValue) (key : String) (default : JValue) : Except String JValue :=
  match v with
  | .obj fs => .ok ((jlookup fs key).getD default)
  | _ => .error ("AttributeError: object has no attribute get " ++ key)

/-- `v.items()` with Python exception semantics (dicts only). -/
def pyItemsE (v : JValue) : Except String (List (String × JValue)) :=
  match v with
  | .obj fs => .ok fs
  | _ => .error "AttributeError: object has no attribute items"

/-- Iterating a Python value (`for x in v`): lists yield their elements,
strings their characters, dicts their keys; other values raise `TypeError`.
-/
def pyIterE (v : JValue) : Except String (List JValue) :=
  match v with
  | .arr xs => .ok xs
  | .str s => .ok (s.toList.map (fun c => JValue.str (String.mk [c])))
  | .obj fs => .ok (fs.map (fun p => JValue.str p.1))
  | _ => .error "TypeError: object is not iterable"

/-- Python `str(v)`.  For scalar values this matches CPython exactly; the
textual repr of containers is abstracted (it is only ever used to render
execution ids, which are scalars in real payloads). -/
def jstr : JValue → String
  | .null => "None"
  | .bool true => "True"
  | .bool false => "False"
  | .num n => toString n
  | .str s => s
  | .arr _ => "<list>"
  | .obj _ => "<dict>"

/-- Python `v == m` where `m` is a `str`: only a `str` value can be equal. -/
def jEqStr (v : JValue) (m : String) : Bool :=
  match v with
  | .str s => s == m
  | _ => false

/-!  Timestamp helpers (`normalize_timestamp`, `format_timestamp`). -/

/-- Python `int(s)` on a string: optional surrounding whitespace, optional
sign, decimal digits; anything else raises `ValueError`, modelled as `none`
(the caller catches it).  Underscore digit separators are not modelled. -/
def pyParseInt (s : String) : Option Int :=
  let t := s.trim
  if t.startsWith "+" then (t.drop 1).toNat?.map Int.ofNat else t.toInt?

/-- `normalize_timestamp` (source lines 376-387): convert a timestamp to
int; `None` for anything unparseable.  A Python `bool` is an `int` subtype
(`True == 1`), hence the `.bool` case. -/
def normalize_timestamp : JValue → Option Int
  | .null => none
  | .bool b => some (if b then 1 else 0)
  | .num n => some n
  | .str s => pyParseInt s
  | _ => none

/-- Largest value of the platform `time_t` (signed 64-bit). -/
def timeTMax : Int := 2 ^ 63 - 1

/-- Smallest value of the platform `time_t` (signed 64-bit). -/
def timeTMin : Int := -(2 ^ 63)

/-- Proleptic-Gregorian civil date from a day count relative to 1970-01-01
(standard days-to-civil algorithm, floor divisions throughout). -/
def civilFromDays (z0 : Int) : Int × Int × Int :=
  let z := z0 + 719468
  let era := Int.fdiv z 146097
  let doe := z - era * 146097
  let yoe := Int.fdiv (doe - Int.fdiv doe 1460 + Int.fdiv doe 36524 - Int.fdiv doe 146096) 365
  let y := yoe + era * 400
  let doy := doe - (365 * yoe + Int.fdiv yoe 4 - Int.fdiv yoe 100)
  let mp := Int.fdiv (5 * doy + 2) 153
  let d := doy - Int.fdiv (153 * mp + 2) 5 + 1
  let m := mp + (if mp < 10 then 3 else -9)
  (y + (if m ≤ 2 then 1 else 0), m, d)

/-- Zero-padded decimal rendering of a nonnegative integer. -/
def padNum (width : Nat) (n : Int) : String :=
  let s := toString n
  if s.length < width then String.mk (List.replicate (width - s.length) '0') ++ s else s

/-- `strftime("%Y-%m-%d %H:%M")` of a Unix-seconds value already shifted
into the target civil offset. -/
def renderCivil (secs : Int) : String :=
  let days := Int.fdiv secs 86400
  let sod := secs - 86400 * days
  let ymd := civilFromDays days
  let hh := Int.fdiv sod 3600
  let mm := Int.fdiv (sod - 3600 * hh) 60
  padNum 4 ymd.1 ++ "-" ++ padNum 2 ymd.2.1 ++ "-" ++ padNum 2 ymd.2.2 ++ " " ++
    padNum 2 hh ++ ":" ++ padNum 2 mm

/-- `format_timestamp` (source lines 390-401): render Unix seconds in the
Asia/Riyadh timezone (UTC+3) as `YYYY-MM-DD HH:MM`.
`datetime.fromtimestamp` raises `OverflowError` when the input does not fit
the platform `time_t`; that exception is NOT in the `except (ValueError,
OSError)` clause, so it propagates (modelled as `.error`).  Inside the
`time_t` range the conversion either succeeds (year 1..9999) or raises
`ValueError`/`OSError` (year out of the datetime range or out of the
platform `gmtime` range), which the function catches and turns into `None`.
Asia/Riyadh is UTC+3 for all timestamps of this domain (the pre-1947 local
mean time offset of the tz database is abstracted to the fixed +3 offset,
which is also the source's fallback when `zoneinfo` is unavailable). -/
def format_timestamp (ts : Option Int) : Except String (Option String) :=
  match ts with
  | none => .ok none
  | some t =>
    if t < timeTMin ∨ timeTMax < t then
      .error "OverflowError: timestamp out of range for platform time_t"
    else
      let shifted := t + 3 * 3600
      let y := (civilFromDays (Int.fdiv shifted 86400)).1
      if 1 ≤ y ∧ y ≤ 9999 then .ok (some (renderCivil shifted)) else .ok none

/-!  Status events and the reconciler. -/

/-- One extracted status event (source lines 485-492 and spec §3). -/
structure StatusEvent where
  status : String
  timestamp : Option Int
  timestampFormatted : Option String
  recipient_id : Option String
  executionId : String
  recipientMismatch : Bool
deriving DecidableEq, Repr

/-- Python `status.lower()`: ASCII lowering (status values in this domain
are ASCII; the full Unicode lowering of `str.lower` is not modelled). -/
def pyLower (s : String) : String :=
  String.mk (s.data.map (fun c =>
    if 65 ≤ c.toNat ∧ c.toNat ≤ 90 then Char.ofNat (c.toNat + 32) else c))

/-- `get_status_priority` (source lines 497-510). -/
def get_status_priority (status : String) : Int :=
  let s := pyLower status
  if s == "failed" then 100
  else if s == "undelivered" then 100
  else if s == "read" then 50
  else if s == "delivered" then 40
  else if s == "sent" then 30
  else if s == "unknown" then 10
  else 10

/-- `is_terminal_status` (source lines 513-515). -/
def is_terminal_status (status : String) : Bool :=
  let s := pyLower status
  s == "failed" || s == "undelivered" || s == "read"

/-- Sort key of `determine_latest_status`: `(x.get("timestamp") or 0,
get_status_priority(x.get("status", "unknown")))`.  `or 0` maps both `None`
and `0` to `0`, i.e. `Option.getD 0`. -/
def keyOf (e : StatusEvent) : Int × Int := (e.timestamp.getD 0, get_status_priority e.status)

/-- Lexicographic `≥` on sort keys (Python tuple comparison, descending). -/
def keyGe (a b : Int × Int) : Prop := b.1 < a.1 ∨ (a.1 = b.1 ∧ b.2 ≤ a.2)

instance : DecidableRel keyGe := fun _ _ => inferInstanceAs (Decidable (_ ∨ _))

/-- The relation realising Python's stable `sorted(key=..., reverse=True)`
for `determine_latest_status`: placing `a` before `b` is allowed iff
`key a ≥ key b` lexicographically. -/
def dlsGe (a b : StatusEvent) : Prop := keyGe (keyOf a) (keyOf b)

instance : DecidableRel dlsGe := fun _ _ => inferInstanceAs (Decidable (keyGe _ _))

instance : IsTotal StatusEvent dlsGe :=
  ⟨by
    intro a b
    unfold dlsGe keyGe
    omega⟩

instance : IsTrans StatusEvent dlsGe :=
  ⟨by
    intro a b c hab hbc
    unfold dlsGe keyGe at *
    omega⟩

/-- The relation realising the stable `sort(key=lambda x: x.get("timestamp")
or 0, reverse=True)` on the deduplicated history (source line 787). -/
def tsGe (a b : StatusEvent) : Prop := b.timestamp.getD 0 ≤ a.timestamp.getD 0

instance : DecidableRel tsGe := fun _ _ => inferInstanceAs (Decidable (_ ≤ _))

instance : IsTotal StatusEvent tsGe := ⟨fun _ _ => le_total _ _⟩

instance : IsTrans StatusEvent tsGe := ⟨fun _ _ _ hab hbc => le_trans hbc hab⟩

/-- `determine_latest_status` (source lines 518-549). -/
def determine_latest_status (history : List StatusEvent) : String × Option Int :=
  match history with
  | [] => ("not_found", none)
  | h0 :: _ =>
    if history.all (fun h => h.recipientMismatch) then
      ("wa_id_mismatch", h0.timestamp)
    else
      let valid_history := history.filter (fun h => !h.recipientMismatch)
      if valid_history.isEmpty then
        ("wa_id_mismatch", h0.timestamp)
      else
        match List.insertionSort dlsGe valid_history with
        | [] => ("wa_id_mismatch", h0.timestamp)
        | latest :: _ => (latest.status, latest.timestamp)

/-- Deduplication key of the track-mode reconciler (source lines 772-777):
`(status, timestamp, recipient_id, executionId)`. -/
def dedupKey (e : StatusEvent) : String × Option Int × Option String × String :=
  (e.status, e.timestamp, e.recipient_id, e.executionId)

/-- The `seen`-set loop of `track_message_status` (source lines 766-784),
with the set of already-seen keys made explicit. -/
def dedupStatusesGo (seen : List (String × Option Int × Option String × String)) :
    List StatusEvent → List StatusEvent
  | [] => []
  | e :: rest =>
    if dedupKey e ∈ seen then dedupStatusesGo seen rest
    else e :: dedupStatusesGo (dedupKey e :: seen) rest

/-- Track-mode deduplication: first occurrence of each
`(status, timestamp, recipient_id, executionId)` key wins. -/
def dedupStatuses (l : List StatusEvent) : List StatusEvent := dedupStatusesGo [] l

/-- The resolved history of `track_message_status` (source lines 766-787):
deduplicate, then stably sort by timestamp-or-0 descending. -/
def resolve_history (l : List StatusEvent) : List StatusEvent :=
  List.insertionSort tsGe (dedupStatuses l)

/-- Deduplication key of the persistence path (`deduplicate_history`,
source lines 163-183): `(status, timestamp, executionId)` only — the
recipient id and the mismatch flag are NOT part of the key. -/
def historyKey (e : StatusEvent) : String × Option Int × String :=
  (e.status, e.timestamp, e.executionId)

/-- The `seen`-set loop of `deduplicate_history`. -/
def deduplicateHistoryGo (seen : List (String × Option Int × String)) :
    List StatusEvent → List StatusEvent
  | [] => []
  | e :: rest =>
    if historyKey e ∈ seen then deduplicateHistoryGo seen rest
    else e :: deduplicateHistoryGo (historyKey e :: seen) rest

/-- `deduplicate_history` (source lines 163-183). -/
def deduplicate_history (history : List StatusEvent) : List StatusEvent :=
  deduplicateHistoryGo [] history

/-!  Status extraction (`extract_status_updates`, source lines 405-494).
The nested `for` loops of the source are modelled as one recursive helper
per loop, innermost first; `continue` branches become recursive calls that
skip the current element.  Spots where CPython would raise (`.get` on a
non-dict, iterating a non-iterable, `OverflowError` from
`format_timestamp`) are threaded through `Except`. -/

/-- Innermost loop (source lines 466-492): `for status_obj in statuses`.
Pure except for `format_timestamp`, whose `OverflowError` propagates. -/
def extractFromStatusList (execution_id message_id wa_id : String) :
    List JValue → Except String (List StatusEvent)
  | [] => .ok []
  | s :: rest =>
    match s with
    | .obj _ =>
      -- if status_obj.get("id", "") != message_id: continue
      if !jEqStr (jget s "id" (.str "")) message_id then
        extractFromStatusList execution_id message_id wa_id rest
      else do
        let status := jstr (jget s "status" (.str "unknown"))
        let timestamp := normalize_timestamp (jget s "timestamp" .null)
        let tsFormatted ← format_timestamp timestamp
        let rawRecipient := jget s "recipient_id" .null
        -- if recipient_id and recipient_id != wa_id: recipient_mismatch = True
        let recipient_mismatch := truthy rawRecipient && !jEqStr rawRecipient wa_id
        let recipient_id : Option String :=
          match rawRecipient with
          | .null => none
          | v => some (jstr v)
        let tail ← extractFromStatusList execution_id message_id wa_id rest
        .ok ({ status := status, timestamp := timestamp, timestampFormatted := tsFormatted,
               recipient_id := recipient_id, executionId := execution_id,
               recipientMismatch := recipient_mismatch } :: tail)
    | _ => extractFromStatusList execution_id message_id wa_id rest

/-- `for item in main_item` (source lines 450-464): webhook body lookup. -/
def extractFromItems (execution_id message_id wa_id : String) :
    List JValue → Except String (List StatusEvent)
  | [] => .ok []
  | item :: rest =>
    match item with
    | .obj _ => do
      -- body = item.get("json", {}).get("body") or item.get("json", {})
      let ijson := jget item "json" (.obj [])
      let b1 ← pyGetE ijson "body"
      let body0 := pyOr b1 ijson
      -- if isinstance(body, list) and len(body) > 0: body = body[0]
      let body := match body0 with
        | .arr (x :: _) => x
        | _ => body0
      -- statuses = body.get("statuses") or []
      let sv ← pyGetE body "statuses"
      let statuses := pyOr sv (.arr [])
      match statuses with
      | .arr ss => do
        let here ← extractFromStatusList execution_id message_id wa_id ss
        let tail ← extractFromItems execution_id message_id wa_id rest
        .ok (here ++ tail)
      | _ => extractFromItems execution_id message_id wa_id rest
    | _ => extractFromItems execution_id message_id wa_id rest

/-- `for main_item in main_data` (source lines 446-449). -/
def extractFromMainItems (execution_id message_id wa_id : String) :
    List JValue → Except String (List StatusEvent)
  | [] => .ok []
  | mi :: rest =>
    match mi with
    | .arr items => do
      let here ← extractFromItems execution_id message_id wa_id items
      let tail ← extractFromMainItems execution_id message_id wa_id rest
      .ok (here ++ tail)
    | _ => extractFromMainItems execution_id message_id wa_id rest

/-- `for run in node_runs` (source lines 439-449). -/
def extractFromRuns (execution_id message_id wa_id : String) :
    List JValue → Except String (List StatusEvent)
  | [] => .ok []
  | run :: rest =>
    match run with
    | .obj _ => do
      -- main_data = run.get("data", {}).get("main") or []
      let rdata ← pyGetDE run "data" (.obj [])
      let mainv ← pyGetE rdata "main"
      let main_data := pyOr mainv (.arr [])
      let elems ← pyIterE main_data
      let here ← extractFromMainItems execution_id message_id wa_id elems
      let tail ← extractFromRuns execution_id message_id wa_id rest
      .ok (here ++ tail)
    | _ => extractFromRuns execution_id message_id wa_id rest

/-- `for node_name, node_runs in run_data.items()` (source lines 435-449). -/
def extractFromNodes (execution_id message_id wa_id : String) :
    List (String × JValue) → Except String (List StatusEvent)
  | [] => .ok []
  | (_, node_runs) :: rest =>
    match node_runs with
    | .arr runs => do
      let here ← extractFromRuns execution_id message_id wa_id runs
      let tail ← extractFromNodes execution_id message_id wa_id rest
      .ok (here ++ tail)
    | _ => extractFromNodes execution_id message_id wa_id rest

/-- `extract_status_updates` (source lines 405-494). -/
def extract_status_updates (execution : JValue) (message_id wa_id : String) :
    Except String (List StatusEvent) := do
  let idv ← pyGetDE execution "id" (.str "unknown")
  let execution_id := jstr idv
  let d1 ← pyGetE execution "data"
  let d2 ← pyGetE execution "executionData"
  let exec_data := pyOr d1 (pyOr d2 (.obj []))
  let rdv ← pyGetE exec_data "resultData"
  let result_data := pyOr rdv (.obj [])
  let rnv ← pyGetE result_data "runData"
  let run_data := pyOr rnv (.obj [])
  let entries ← pyItemsE run_data
  extractFromNodes execution_id message_id wa_id entries

/-!  Shape tolerance class for the extractor.  `executionOk` is true for
payload trees in which every level that the extractor dereferences without
an `isinstance` guard is either absent/falsy (yielding the code's default)
or of the expected dict/list type, and every status object matching the
target message has a timestamp inside the platform `time_t` range.  On this
class the extractor cannot raise. -/

/-- Timestamp small enough for `format_timestamp` not to overflow. -/
def tsOk (t : Option Int) : Bool :=
  match t with
  | none => true
  | some n => decide (timeTMin ≤ n ∧ n ≤ timeTMax)

/-- Safe status object: anything that is not a dict is skipped; a dict is
only dereferenced further when its id matches the target message. -/
def statusObjOk (message_id : String) (s : JValue) : Bool :=
  match s with
  | .obj _ =>
    if jEqStr (jget s "id" (.str "")) message_id then
      tsOk (normalize_timestamp (jget s "timestamp" .null))
    else true
  | _ => true

/-- Safe output item: the effective webhook body must be a dict. -/
def itemOk (message_id : String) (item : JValue) : Bool :=
  match item with
  | .obj _ =>
    match jget item "json" (.obj []) with
    | .obj js =>
      let b1 := (jlookup js "body").getD .null
      let body0 := pyOr b1 (.obj js)
      let body := match body0 with
        | .arr (x :: _) => x
        | _ => body0
      match body with
      | .obj bs =>
        match pyOr ((jlookup bs "statuses").getD .null) (.arr []) with
        | .arr ss => ss.all (statusObjOk message_id)
        | _ => true
      | _ => false
    | _ => false
  | _ => true

/-- Safe run attempt: a present `data` entry must be a dict, and its `main`
entry (if truthy) must be iterable. -/
def runOk (message_id : String) (run : JValue) : Bool :=
  match run with
  | .obj fs =>
    match jlookup fs "data" with
    | none => true
    | some (.obj rd) =>
      let main_data := pyOr ((jlookup rd "main").getD .null) (.arr [])
      match pyIterE main_data with
      | .ok elems =>
        elems.all (fun mi =>
          match mi with
          | .arr items => items.all (itemOk message_id)
          | _ => true)
      | .error _ => false
    | some _ => false
  | _ => true

/-- Safe execution record for the extractor. -/
def executionOk (message_id : String) (e : JValue) : Bool :=
  match e with
  | .obj _ =>
    match pyOr (jget e "data" .null) (pyOr (jget e "executionData" .null) (.obj [])) with
    | .obj ed =>
      match pyOr ((jlookup ed "resultData").getD .null) (.obj []) with
      | .obj rd =>
        match pyOr ((jlookup rd "runData").getD .null) (.obj []) with
        | .obj entries =>
          entries.all (fun p =>
            match p.2 with
            | .arr runs => runs.all (runOk message_id)
            | _ => true)
        | _ => false
      | _ => false
    | _ => false
  | _ => false

/-!  Track-mode scan loop (source lines 736-764).  The per-execution
`try/except` catches anything the extractor raises and continues with the
next execution.  The second component counts how many executions were
actually scanned (i.e. how many loop iterations ran). -/

/-- The `since` filter of the scan loop (source lines 745-746): `if since:`
uses Python falsiness, so `0` and `None` disable it; the comparison is
`(s.get("timestamp") or 0) >= since`. -/
def sinceFilter (since : Option Int) (l : List StatusEvent) : List StatusEvent :=
  if since.getD 0 != 0 then l.filter (fun s => since.getD 0 ≤ s.timestamp.getD 0) else l

/-- The scan loop of `track_message_status`: extract per execution, apply
the `since` filter, accumulate, and break out as soon as a terminal status
is seen. -/
def track_scan_loop (message_id wa_id : String) (since : Option Int) :
    List JValue → List StatusEvent × Nat
  | [] => ([], 0)
  | ex :: rest =>
    match extract_status_updates ex message_id wa_id with
    | .error _ =>
      -- except Exception: continue
      let r := track_scan_loop message_id wa_id since rest
      (r.1, r.2 + 1)
    | .ok statuses0 =>
      let statuses := sinceFilter since statuses0
      if statuses.isEmpty then
        let r := track_scan_loop message_id wa_id since rest
        (r.1, r.2 + 1)
      else if statuses.any (fun s => is_terminal_status s.status) then
        -- found_terminal: extend, then break
        (statuses, 1)
      else
        let r := track_scan_loop message_id wa_id since rest
        (statuses ++ r.1, r.2 + 1)

/-!  Resilient HTTP client (`request_with_retry`, source lines 117-140).
The transport layer is an `attempts` function giving, per 1-indexed attempt
number, either a response or a transport exception.  `rand` supplies the
`random.random()` draw of each attempt (contract: a value in `[0, 1)`);
floats are modelled as rationals.  The result carries the list of backoff
delays actually slept, in order. -/

/-- HTTP response as seen by the retry loop. -/
structure HttpResponse where
  status_code : Nat
  body : JValue
deriving Repr

/-- The transient status codes of source line 131. -/
def transientCodes : List Nat := [429, 500, 502, 503, 504]

/-- `backoff = (2 ** (attempt - 1)) * 0.6 + random.random() * 0.3`. -/
def backoffDelay (attempt : Nat) (jitter : Rat) : Rat :=
  (2 : Rat) ^ (attempt - 1) * (6 / 10) + jitter * (3 / 10)

/-- The retry loop with `remaining` attempts left; `attempt` is the
1-indexed attempt counter of the source (`attempt == max_retries` is
exactly `remaining = 1`).  The `0` case is the `raise RuntimeError
("unreachable")` after the loop (source line 140). -/
def retryGo (attempts : Nat → Except String HttpResponse) (rand : Nat → Rat) :
    Nat → Nat → Except String HttpResponse × List Rat
  | 0, _ => (.error "RuntimeError: unreachable", [])
  | remaining + 1, attempt =>
    match attempts attempt with
    | .ok resp =>
      -- if resp.status_code in (429, 500, 502, 503, 504): raise RuntimeError(...)
      if transientCodes.contains resp.status_code then
        if remaining == 0 then
          (.error ("HTTP " ++ toString resp.status_code), [])
        else
          let d := backoffDelay attempt (rand attempt)
          let r := retryGo attempts rand remaining (attempt + 1)
          (r.1, d :: r.2)
      else (.ok resp, [])
    | .error e =>
      if remaining == 0 then (.error e, [])
      else
        let d := backoffDelay attempt (rand attempt)
        let r := retryGo attempts rand remaining (attempt + 1)
        (r.1, d :: r.2)

/-- `request_with_retry` (source lines 117-140); `max_retries = 5` at every
call site. -/
def request_with_retry (attempts : Nat → Except String HttpResponse) (rand : Nat → Rat)
    (max_retries : Nat) : Except String HttpResponse × List Rat :=
  retryGo attempts rand max_retries 1

/-!  Execution fetcher (`fetch_executions`, source lines 322-369).  The
listing endpoint is a function from (loop iteration, cursor, batch limit)
to a response; indexing by iteration lets the server answer differently on
every page.  The second component of `fetch_loop` counts the requests
issued (one per loop iteration), which makes termination observable. -/

/-- `requests.utils.quote(cursor)` accepts strings; a truthy non-string
cursor raises `TypeError` when the next URL is built. -/
def quoteCursor : Option JValue → Except String (Option String)
  | none => .ok none
  | some (.str s) => .ok (some s)
  | some _ => .error "TypeError: quote expects a string"

/-- One iteration of the `while fetched < limit` pagination loop.  The
Python locals are inlined: `batch_limit` is `min 100 (limit - fetched)`;
`batch` is `data.get("data") or data.get("executions") or []` (iterated);
`cursor = data.get("nextCursor") or None`, so `not cursor` is `!truthy nc`
and the cursor passed to the next iteration is
`if truthy nc then some nc else none`. -/
def fetch_loop (server : Nat → Option String → Nat → HttpResponse) (limit : Nat)
    (iter fetched : Nat) (cursor : Option JValue) (out : List JValue) :
    Except String (List JValue) × Nat :=
  if _hfl : fetched < limit then
    match quoteCursor cursor with
    | .error e => (.error e, iter)
    | .ok qc =>
      match (request_with_retry
          (fun _ => .ok (server iter qc (min 100 (limit - fetched)))) (fun _ => 0) 5).1 with
      | .error e => (.error e, iter + 1)
      | .ok resp =>
        if resp.status_code != 200 then
          (.error ("List executions failed: " ++ toString resp.status_code), iter + 1)
        else
          match pyGetE resp.body "data" with
          | .error e => (.error e, iter + 1)
          | .ok dv =>
            match pyGetE resp.body "executions" with
            | .error e => (.error e, iter + 1)
            | .ok ev =>
              match pyIterE (pyOr dv (pyOr ev (.arr []))) with
              | .error e => (.error e, iter + 1)
              | .ok batch =>
                match pyGetE resp.body "nextCursor" with
                | .error e => (.error e, iter + 1)
                | .ok nc =>
                  -- if not cursor or not batch: break
                  if !truthy nc || batch.isEmpty then (.ok (out ++ batch), iter + 1)
                  else fetch_loop server limit (iter + 1) (fetched + batch.length)
                    (if truthy nc then some nc else none) (out ++ batch)
  else (.ok out, iter)
termination_by limit - fetched
decreasing_by
  rename_i hbr
  simp only [Bool.or_eq_true, not_or, Bool.not_eq_true] at hbr
  have hlen : 0 < batch.length := by
    cases batch with
    | nil => simp [List.isEmpty] at hbr
    | cons x xs => simp
  omega

/-- `fetch_executions` (source lines 322-369): run the pagination loop and
truncate to the requested count (`return out[:limit]`). -/
def fetch_executions (server : Nat → Option String → Nat → HttpResponse) (limit : Nat) :
    Except String (List JValue) :=
  match (fetch_loop server limit 0 0 none []).1 with
  | .ok out => .ok (out.take limit)
  | .error e => .error e

/-- Number of listing requests the pagination loop issues. -/
def fetch_calls (server : Nat → Option String → Nat → HttpResponse) (limit : Nat) : Nat :=
  (fetch_loop server limit 0 0 none []).2

/-!  Persistence upserter (`save_messages_to_mongodb`, source lines
186-314).  The Mongo collection is a list of documents; `find_one` is the
first document with the given `messageId` (the collection keeps a unique
index on it).  The function first builds the full list of `UpdateOne`
operations (running `find_one` against the store as it was at entry) and
then applies them, exactly like the source, which only calls `bulk_write`
after the loop.  An exception inside the loop (the `None > None` timestamp
comparison, see `pyGtOpt`) aborts the whole batch before anything is
written; the caller catches it and reports `0` processed. -/

/-- Incoming reconciled message (the dicts built at source lines 681-689
and 885-893).  Every key is always present there, possibly with value
`None`, so `Option` models the value, not key absence; `statusCount` keeps
its `msg.get("statusCount", 1)` default through `Option`. -/
structure MessageRecord where
  messageId : Option String
  waId : Option String
  latestStatus : Option String
  latestTimestamp : Option Int
  latestTimestampFormatted : Option String
  statusCount : Option Int
  history : List StatusEvent
deriving DecidableEq, Repr

/-- Persisted document.  Both insert paths write every field below, so all
keys are present; `statusHistory = none` models the key being absent (it is
only written when the incoming history is non-empty). -/
structure StoredDoc where
  messageId : String
  conversation_id : Option String
  latestStatus : Option String
  latestTimestamp : Option Int
  latestTimestampFormatted : Option String
  statusCount : Int
  workflowId : String
  firstSeenAt : Int
  lastUpdatedAt : Int
  lastScannedAt : Int
  statusHistory : Option (List StatusEvent)
deriving DecidableEq, Repr

/-- `collection.find_one({"messageId": id})`. -/
def findDoc (store : List StoredDoc) (id : String) : Option StoredDoc :=
  store.find? (fun d => d.messageId == id)

/-- Python `new_ts > existing_ts` on optional ints: comparing `None` with
anything raises `TypeError` (uncaught until the batch-level handler). -/
def pyGtOpt (a b : Option Int) : Except String Bool :=
  match a, b with
  | some x, some y => .ok (decide (y < x))
  | _, _ => .error "TypeError: unorderable NoneType comparison"

/-- The `$set`-payload of the status-changed update (source lines 235-256),
together with the `$setOnInsert` value for `firstSeenAt`.  A `none`
`statusHistory` means the key is not part of the `$set` (history empty). -/
structure ContentSet where
  conversation_id : Option String
  latestStatus : Option String
  latestTimestamp : Option Int
  latestTimestampFormatted : Option String
  statusCount : Int
  workflowId : String
  lastUpdatedAt : Int
  lastScannedAt : Int
  statusHistory : Option (List StatusEvent)
  firstSeenAtOnInsert : Int
deriving DecidableEq, Repr

/-- One queued `UpdateOne` operation. -/
inductive UpdateOp where
  | setContent (id : String) (c : ContentSet)
  | setScan (id : String) (now : Int)
  | insertDoc (d : StoredDoc)
deriving DecidableEq, Repr

/-- Build the operation list (the `for msg in messages` loop, source lines
220-296); `find_one` runs against the entry-time store. -/
def buildOps (now : Int) (workflow_id : String) (store : List StoredDoc) :
    List MessageRecord → Except String (List UpdateOp)
  | [] => .ok []
  | msg :: rest =>
    match msg.messageId with
    | none => buildOps now workflow_id store rest    -- if not message_id: continue
    | some id =>
      match findDoc store id with
      | some existing => do
        -- if new_ts > existing_ts or msg["latestStatus"] != existing["latestStatus"]
        let gt ← pyGtOpt msg.latestTimestamp existing.latestTimestamp
        if gt || decide (msg.latestStatus ≠ existing.latestStatus) then do
          let deduplicated := deduplicate_history msg.history
          let c : ContentSet :=
            { conversation_id := msg.waId
              latestStatus := msg.latestStatus
              latestTimestamp := msg.latestTimestamp
              latestTimestampFormatted := msg.latestTimestampFormatted
              statusCount := if msg.history.isEmpty then msg.statusCount.getD 1
                             else deduplicated.length
              workflowId := workflow_id
              lastUpdatedAt := now
              lastScannedAt := now
              statusHistory := if msg.history.isEmpty then none else some deduplicated
              firstSeenAtOnInsert := existing.firstSeenAt }
          let tail ← buildOps now workflow_id store rest
          .ok (.setContent id c :: tail)
        else do
          let tail ← buildOps now workflow_id store rest
          .ok (.setScan id now :: tail)
      | none => do
        let deduplicated := deduplicate_history msg.history
        let d : StoredDoc :=
          { messageId := id
            conversation_id := msg.waId
            latestStatus := msg.latestStatus
            latestTimestamp := msg.latestTimestamp
            latestTimestampFormatted := msg.latestTimestampFormatted
            statusCount := if msg.history.isEmpty then msg.statusCount.getD 1
                           else deduplicated.length
            workflowId := workflow_id
            firstSeenAt := now
            lastUpdatedAt := now
            lastScannedAt := now
            statusHistory := if msg.history.isEmpty then none else some deduplicated }
        let tail ← buildOps now workflow_id store rest
        .ok (.insertDoc d :: tail)

/-- Replace the first document with the given id. -/
def updateFirst (store : List StoredDoc) (id : String) (f : StoredDoc → StoredDoc) :
    List StoredDoc :=
  match store with
  | [] => []
  | d :: rest => if d.messageId == id then f d :: rest else d :: updateFirst rest id f

/-- Apply one `UpdateOne` to the collection with MongoDB semantics:
`$set` touches only the named fields of a matching document;
`$setOnInsert` only takes effect when the upsert inserts. -/
def applyOp (store : List StoredDoc) : UpdateOp → List StoredDoc
  | .setContent id c =>
    match findDoc store id with
    | some _ =>
      updateFirst store id (fun d =>
        { d with
          conversation_id := c.conversation_id
          latestStatus := c.latestStatus
          latestTimestamp := c.latestTimestamp
          latestTimestampFormatted := c.latestTimestampFormatted
          statusCount := c.statusCount
          workflowId := c.workflowId
          lastUpdatedAt := c.lastUpdatedAt
          lastScannedAt := c.lastScannedAt
          statusHistory := match c.statusHistory with
            | some h => some h
            | none => d.statusHistory })
    | none =>
      store ++ [{ messageId := id
                  conversation_id := c.conversation_id
                  latestStatus := c.latestStatus
                  latestTimestamp := c.latestTimestamp
                  latestTimestampFormatted := c.latestTimestampFormatted
                  statusCount := c.statusCount
                  workflowId := c.workflowId
                  firstSeenAt := c.firstSeenAtOnInsert
                  lastUpdatedAt := c.lastUpdatedAt
                  lastScannedAt := c.lastScannedAt
                  statusHistory := c.statusHistory }]
  | .setScan id now =>
    updateFirst store id (fun d => { d with lastScannedAt := now })
  | .insertDoc d =>
    match findDoc store d.messageId with
    | some _ => store      -- $setOnInsert on an existing document: no write
    | none => store ++ [d]

/-- `bulk_write`: apply the queued operations in order. -/
def applyOps (store : List StoredDoc) : List UpdateOp → List StoredDoc
  | [] => store
  | op :: rest => applyOps (applyOp store op) rest

/-- `save_messages_to_mongodb` (source lines 186-314): build all operations
against the entry-time store, then apply them.  An exception while building
reaches the batch-level handler before `bulk_write` runs: nothing at all is
written. -/
def save_messages_to_mongodb (now : Int) (workflow_id : String)
    (messages : List MessageRecord) (store : List StoredDoc) :
    Except String (List StoredDoc) :=
  match buildOps now workflow_id store messages with
  | .ok ops => .ok (applyOps store ops)
  | .error e => .error e

/-!  Helper lemmas: heads of stable sorts and the `seen`-set loops. -/

theorem sort_nonempty {α : Type} (r : α → α → Prop) [DecidableRel r] {l : List α}
    (h : l ≠ []) : ∃ x t, List.insertionSort r l = x :: t := by
  match hs : List.insertionSort r l with
  | [] =>
    have hp := List.perm_insertionSort r l
    rw [hs] at hp
    exact absurd hp.symm.eq_nil h
  | x :: t => exact ⟨x, t, rfl⟩

theorem sort_head_mem {α : Type} {r : α → α → Prop} [DecidableRel r] {l t : List α} {x : α}
    (h : List.insertionSort r l = x :: t) : x ∈ l := by
  have := List.perm_insertionSort r l
  rw [h] at this
  exact this.subset (List.mem_cons_self x t)

theorem sort_head_ge {α : Type} {r : α → α → Prop} [DecidableRel r] [IsTotal α r] [IsTrans α r]
    {l t : List α} {x : α} (h : List.insertionSort r l = x :: t) : ∀ y ∈ l, r x y := by
  intro y hy
  have hy2 : y ∈ x :: t := by
    rw [← h]
    exact (List.perm_insertionSort r l).symm.subset hy
  rcases List.mem_cons.mp hy2 with rfl | hmem
  · rcases total_of r y y with hr | hr <;> exact hr
  · have hs := List.sorted_insertionSort r l
    rw [h] at hs
    exact List.rel_of_sorted_cons hs y hmem

theorem dedupStatusesGo_sublist (seen : List (String × Option Int × Option String × String))
    (l : List StatusEvent) : (dedupStatusesGo seen l).Sublist l := by
  induction l generalizing seen with
  | nil => simp [dedupStatusesGo]
  | cons e rest ih =>
    simp only [dedupStatusesGo]
    split
    · exact (ih seen).cons e
    · exact (ih _).cons₂ e

theorem dedupStatusesGo_filter (k : String × Option Int × Option String × String)
    (l : List StatusEvent) :
    ∀ seen, (dedupStatusesGo seen l).filter (fun e => decide (dedupKey e = k)) =
      if k ∈ seen then [] else (l.filter (fun e => decide (dedupKey e = k))).take 1 := by
  induction l with
  | nil =>
    intro seen
    simp only [dedupStatusesGo, List.filter_nil, List.take_nil]
    split <;> rfl
  | cons e rest ih =>
    intro seen
    simp only [dedupStatusesGo]
    by_cases hseen : dedupKey e ∈ seen
    · rw [if_pos hseen, ih seen]
      by_cases hk : k ∈ seen
      · rw [if_pos hk, if_pos hk]
      · rw [if_neg hk, if_neg hk]
        have hek : ¬ (dedupKey e = k) := fun h => hk (h ▸ hseen)
        simp [List.filter_cons, hek]
    · rw [if_neg hseen]
      by_cases hek : dedupKey e = k
      · have hk : ¬ k ∈ seen := fun h => hseen (hek ▸ h)
        have h1 : List.filter (fun e => decide (dedupKey e = k))
              (e :: dedupStatusesGo (dedupKey e :: seen) rest)
            = e :: List.filter (fun e => decide (dedupKey e = k))
              (dedupStatusesGo (dedupKey e :: seen) rest) := by
          simp [List.filter_cons, hek]
        have h2 : List.filter (fun e => decide (dedupKey e = k)) (e :: rest)
            = e :: List.filter (fun e => decide (dedupKey e = k)) rest := by
          simp [List.filter_cons, hek]
        rw [if_neg hk, h1, h2, ih (dedupKey e :: seen),
          if_pos (List.mem_cons.mpr (Or.inl hek.symm))]
        simp
      · have h1 : List.filter (fun e => decide (dedupKey e = k))
              (e :: dedupStatusesGo (dedupKey e :: seen) rest)
            = List.filter (fun e => decide (dedupKey e = k))
              (dedupStatusesGo (dedupKey e :: seen) rest) := by
          simp [List.filter_cons, hek]
        have h2 : List.filter (fun e => decide (dedupKey e = k)) (e :: rest)
            = List.filter (fun e => decide (dedupKey e = k)) rest := by
          simp [List.filter_cons, hek]
        rw [h1, h2, ih (dedupKey e :: seen)]
        by_cases hk : k ∈ seen
        · rw [if_pos hk, if_pos (List.mem_cons_of_mem _ hk)]
        · rw [if_neg hk, if_neg (fun hm => by
            rcases List.mem_cons.mp hm with h | h
            · exact hek h.symm
            · exact hk h)]

theorem dedupStatusesGo_pairwise (l : List StatusEvent) :
    ∀ seen, (dedupStatusesGo seen l).Pairwise (fun a b => dedupKey a ≠ dedupKey b) ∧
      ∀ e ∈ dedupStatusesGo seen l, dedupKey e ∉ seen := by
  induction l with
  | nil => intro seen; simp [dedupStatusesGo]
  | cons e rest ih =>
    intro seen
    simp only [dedupStatusesGo]
    by_cases hseen : dedupKey e ∈ seen
    · rw [if_pos hseen]
      exact ih seen
    · rw [if_neg hseen]
      obtain ⟨hpw, hns⟩ := ih (dedupKey e :: seen)
      refine ⟨List.pairwise_cons.mpr ⟨?_, hpw⟩, ?_⟩
      · intro b hb hkey
        exact hns b hb (hkey ▸ List.mem_cons_self _ _)
      · intro x hx
        rcases List.mem_cons.mp hx with rfl | hx2
        · exact hseen
        · exact fun hmem => hns x hx2 (List.mem_cons_of_mem _ hmem)

theorem deduplicateHistoryGo_sublist (seen : List (String × Option Int × String))
    (l : List StatusEvent) : (deduplicateHistoryGo seen l).Sublist l := by
  induction l generalizing seen with
  | nil => simp [deduplicateHistoryGo]
  | cons e rest ih =>
    simp only [deduplicateHistoryGo]
    split
    · exact (ih seen).cons e
    · exact (ih _).cons₂ e

theorem deduplicateHistoryGo_filter (k : String × Option Int × String)
    (l : List StatusEvent) :
    ∀ seen, (deduplicateHistoryGo seen l).filter (fun e => decide (historyKey e = k)) =
      if k ∈ seen then [] else (l.filter (fun e => decide (historyKey e = k))).take 1 := by
  induction l with
  | nil =>
    intro seen
    simp only [deduplicateHistoryGo, List.filter_nil, List.take_nil]
    split <;> rfl
  | cons e rest ih =>
    intro seen
    simp only [deduplicateHistoryGo]
    by_cases hseen : historyKey e ∈ seen
    · rw [if_pos hseen, ih seen]
      by_cases hk : k ∈ seen
      · rw [if_pos hk, if_pos hk]
      · rw [if_neg hk, if_neg hk]
        have hek : ¬ (historyKey e = k) := fun h => hk (h ▸ hseen)
        simp [List.filter_cons, hek]
    · rw [if_neg hseen]
      by_cases hek : historyKey e = k
      · have hk : ¬ k ∈ seen := fun h => hseen (hek ▸ h)
        have h1 : List.filter (fun e => decide (historyKey e = k))
              (e :: deduplicateHistoryGo (historyKey e :: seen) rest)
            = e :: List.filter (fun e => decide (historyKey e = k))
              (deduplicateHistoryGo (historyKey e :: seen) rest) := by
          simp [List.filter_cons, hek]
        have h2 : List.filter (fun e => decide (historyKey e = k)) (e :: rest)
            = e :: List.filter (fun e => decide (historyKey e = k)) rest := by
          simp [List.filter_cons, hek]
        rw [if_neg hk, h1, h2, ih (historyKey e :: seen),
          if_pos (List.mem_cons.mpr (Or.inl hek.symm))]
        simp
      · have h1 : List.filter (fun e => decide (historyKey e = k))
              (e :: deduplicateHistoryGo (historyKey e :: seen) rest)
            = List.filter (fun e => decide (historyKey e = k))
              (deduplicateHistoryGo (historyKey e :: seen) rest) := by
          simp [List.filter_cons, hek]
        have h2 : List.filter (fun e => decide (historyKey e = k)) (e :: rest)
            = List.filter (fun e => decide (historyKey e = k)) rest := by
          simp [List.filter_cons, hek]
        rw [h1, h2, ih (historyKey e :: seen)]
        by_cases hk : k ∈ seen
        · rw [if_pos hk, if_pos (List.mem_cons_of_mem _ hk)]
        · rw [if_neg hk, if_neg (fun hm => by
            rcases List.mem_cons.mp hm with h | h
            · exact hek h.symm
            · exact hk h)]

/-!  Claim C1. -/

/-- C1 (amended): for every non-empty collection with at least one
non-mismatched event, `determine_latest_status` returns the status and
timestamp of a non-mismatched event whose `(timestamp-or-0, priority)` key
is greatest (lexicographically) among the non-mismatched events; the
concrete sent/delivered/read example resolves to `delivered` at 200; and an
event with a present POSITIVE timestamp always outranks one with an absent
timestamp at equal priority (an absent timestamp sorts as 0, so a zero or
negative present timestamp does not outrank an absent one). -/
theorem c1_latest_status_resolution :
    (∀ l : List StatusEvent, (∃ e ∈ l, e.recipientMismatch = false) →
      ∃ e ∈ l, e.recipientMismatch = false ∧
        determine_latest_status l = (e.status, e.timestamp) ∧
        ∀ e2 ∈ l, e2.recipientMismatch = false → keyGe (keyOf e) (keyOf e2)) ∧
    determine_latest_status
        [⟨"sent", some 100, none, none, "1", false⟩,
         ⟨"delivered", some 200, none, none, "1", false⟩,
         ⟨"read", some 150, none, none, "1", false⟩] = ("delivered", some 200) ∧
    (∀ (s1 s2 : String) (t : Int) (tf1 tf2 : Option String)
        (r1 r2 : Option String) (x1 x2 : String),
      get_status_priority s1 = get_status_priority s2 → 0 < t →
      determine_latest_status
        [⟨s2, none, tf2, r2, x2, false⟩, ⟨s1, some t, tf1, r1, x1, false⟩] =
        (s1, some t)) := by
  refine ⟨?_, by decide, ?_⟩
  · intro l hex
    obtain ⟨w, hwmem, hwval⟩ := hex
    match l with
    | [] => exact absurd hwmem (List.not_mem_nil w)
    | h0 :: tl =>
      have hall : (h0 :: tl).all (fun h => h.recipientMismatch) = false := by
        cases hcase : (h0 :: tl).all (fun h => h.recipientMismatch) with
        | false => rfl
        | true =>
          have := List.all_eq_true.mp hcase w hwmem
          rw [hwval] at this
          exact absurd this (by simp)
      have hwv : w ∈ (h0 :: tl).filter (fun h => !h.recipientMismatch) :=
        List.mem_filter.mpr ⟨hwmem, by simp [hwval]⟩
      have hvne : (h0 :: tl).filter (fun h => !h.recipientMismatch) ≠ [] :=
        List.ne_nil_of_mem hwv
      obtain ⟨x, t, hsort⟩ := sort_nonempty dlsGe hvne
      have hxv : x ∈ (h0 :: tl).filter (fun h => !h.recipientMismatch) :=
        sort_head_mem hsort
      have hxmem : x ∈ h0 :: tl := (List.mem_filter.mp hxv).1
      have hxval : x.recipientMismatch = false := by
        have := (List.mem_filter.mp hxv).2
        simpa using this
      refine ⟨x, hxmem, hxval, ?_, ?_⟩
      · simp only [determine_latest_status, hall, Bool.false_eq_true, if_false,
          List.isEmpty_eq_true, hvne, hsort]
      · intro e2 he2 he2val
        have he2v : e2 ∈ (h0 :: tl).filter (fun h => !h.recipientMismatch) :=
          List.mem_filter.mpr ⟨he2, by simp [he2val]⟩
        exact sort_head_ge hsort e2 he2v
  · intro s1 s2 t tf1 tf2 r1 r2 x1 x2 hp ht
    have hnot : ¬ dlsGe ⟨s2, none, tf2, r2, x2, false⟩ ⟨s1, some t, tf1, r1, x1, false⟩ := by
      simp only [dlsGe, keyGe, keyOf, Option.getD]
      simp [hp]
      omega
    simp [determine_latest_status, List.orderedInsert, hnot]

/-- C1 counterexample: with a present NEGATIVE timestamp and an absent one
at equal priority, the absent-timestamp event wins (absent sorts as 0,
which is greater than -5), so "an event with a present timestamp always
outranks one with an absent timestamp at equal priority" is false as
stated. -/
theorem c1_counterexample :
    determine_latest_status
        [⟨"sent", some (-5), none, none, "1", false⟩,
         ⟨"sent", none, none, none, "2", false⟩] = ("sent", none) ∧
    determine_latest_status
        [⟨"sent", some (-5), none, none, "1", false⟩,
         ⟨"sent", none, none, none, "2", false⟩] ≠ ("sent", some (-5)) := by
  constructor
  · decide
  · decide

/-- C1 witness: the general resolution conjunct applied at a concrete
two-event history, and the positive-timestamp outranking conjunct at
concrete statuses. -/
theorem c1_latest_status_resolution_witness :
    (∃ e ∈ [⟨"sent", some 100, none, none, "1", false⟩,
            ⟨"read", some 150, none, none, "1", true⟩],
      e.recipientMismatch = false ∧
        determine_latest_status
          [⟨"sent", some 100, none, none, "1", false⟩,
           (⟨"read", some 150, none, none, "1", true⟩ : StatusEvent)] =
          (e.status, e.timestamp) ∧
        ∀ e2 ∈ [(⟨"sent", some 100, none, none, "1", false⟩ : StatusEvent),
                ⟨"read", some 150, none, none, "1", true⟩],
          e2.recipientMismatch = false → keyGe (keyOf e) (keyOf e2)) ∧
    determine_latest_status
        [⟨"undelivered", none, none, none, "a", false⟩,
         ⟨"failed", some 7, none, none, "b", false⟩] = ("failed", some 7) := by
  constructor
  · exact c1_latest_status_resolution.1
      [⟨"sent", some 100, none, none, "1", false⟩,
       ⟨"read", some 150, none, none, "1", true⟩]
      ⟨⟨"sent", some 100, none, none, "1", false⟩, by decide, by decide⟩
  · exact c1_latest_status_resolution.2.2 "failed" "undelivered" 7 none none none none "b" "a"
      (by decide) (by decide)

/-!  Claim C2. -/

/-- C2: the track-mode deduplication keeps exactly the first occurrence of
each `(status, timestamp, recipient_id, executionId)` key, preserving the
relative order of the kept events (it is a sublist of the input whose
occurrences of each key are the first occurrence of that key in the input);
hence the resolved history contains exactly one event of any duplicated key
and no two events of the resolved history share a key. -/
theorem c2_dedup_first_occurrence (l : List StatusEvent)
    (k : String × Option Int × Option String × String) :
    (dedupStatuses l).Sublist l ∧
    (dedupStatuses l).filter (fun e => decide (dedupKey e = k)) =
      (l.filter (fun e => decide (dedupKey e = k))).take 1 ∧
    ((resolve_history l).filter (fun e => decide (dedupKey e = k))).length =
      min 1 (l.filter (fun e => decide (dedupKey e = k))).length ∧
    (resolve_history l).Pairwise (fun a b => dedupKey a ≠ dedupKey b) := by
  have hfil := dedupStatusesGo_filter k l []
  simp only [List.not_mem_nil, if_false] at hfil
  have hfil2 : (dedupStatuses l).filter (fun e => decide (dedupKey e = k)) =
      (l.filter (fun e => decide (dedupKey e = k))).take 1 := hfil
  have hperm : List.Perm (resolve_history l) (dedupStatuses l) :=
    List.perm_insertionSort tsGe (dedupStatuses l)
  refine ⟨dedupStatusesGo_sublist [] l, hfil2, ?_, ?_⟩
  · have hlen := (hperm.filter (fun e => decide (dedupKey e = k))).length_eq
    rw [hlen, hfil2, List.length_take]
  · have hpw := (dedupStatusesGo_pairwise l []).1
    exact (List.Perm.pairwise_iff (fun h he => h he.symm) hperm).mpr hpw

/-!  Claim C3. -/

/-- C3: events flagged `recipientMismatch` are excluded from latest-status
ranking (resolution over the full history equals resolution over the
non-mismatched events whenever at least one exists) but are retained in the
resolved history (up to deduplication by key, the flag never removes an
event); when every event is mismatched, the resolved status is the sentinel
`wa_id_mismatch` with the timestamp of the first event of the collection. -/
theorem c3_recipient_mismatch_policy :
    (∀ l : List StatusEvent, (∃ e ∈ l, e.recipientMismatch = false) →
      determine_latest_status l =
        determine_latest_status (l.filter (fun h => !h.recipientMismatch))) ∧
    (∀ (l : List StatusEvent) (e : StatusEvent),
      (∀ a ∈ l, ∀ b ∈ l, dedupKey a = dedupKey b →
        a.recipientMismatch = b.recipientMismatch) →
      e ∈ l → e.recipientMismatch = true →
      ∃ e2 ∈ resolve_history l, dedupKey e2 = dedupKey e ∧
        e2.recipientMismatch = true) ∧
    (∀ (h0 : StatusEvent) (tl : List StatusEvent),
      (∀ e ∈ h0 :: tl, e.recipientMismatch = true) →
      determine_latest_status (h0 :: tl) = ("wa_id_mismatch", h0.timestamp)) := by
  refine ⟨?_, ?_, ?_⟩
  · intro l hex
    obtain ⟨w, hwmem, hwval⟩ := hex
    match l with
    | [] => exact absurd hwmem (List.not_mem_nil w)
    | h0 :: tl =>
      have hall : (h0 :: tl).all (fun h => h.recipientMismatch) = false := by
        cases hcase : (h0 :: tl).all (fun h => h.recipientMismatch) with
        | false => rfl
        | true =>
          have := List.all_eq_true.mp hcase w hwmem
          rw [hwval] at this
          exact absurd this (by simp)
      have hwv : w ∈ (h0 :: tl).filter (fun h => !h.recipientMismatch) :=
        List.mem_filter.mpr ⟨hwmem, by simp [hwval]⟩
      have hvne : (h0 :: tl).filter (fun h => !h.recipientMismatch) ≠ [] :=
        List.ne_nil_of_mem hwv
      match hv : (h0 :: tl).filter (fun h => !h.recipientMismatch) with
      | [] => exact absurd hv hvne
      | v0 :: vt =>
        have hall2 : (v0 :: vt).all (fun h => h.recipientMismatch) = false := by
          cases hcase : (v0 :: vt).all (fun h => h.recipientMismatch) with
          | false => rfl
          | true =>
            have hv0 : v0 ∈ (h0 :: tl).filter (fun h => !h.recipientMismatch) := by
              rw [hv]; exact List.mem_cons_self _ _
            have := List.all_eq_true.mp hcase v0 (List.mem_cons_self _ _)
            have hv0f : v0.recipientMismatch = false := by
              simpa using (List.mem_filter.mp hv0).2
            rw [hv0f] at this
            exact absurd this (by simp)
        have hidem : (v0 :: vt).filter (fun h => !h.recipientMismatch) = v0 :: vt := by
          rw [← hv, List.filter_filter]
          simp
        obtain ⟨x, t, hsort⟩ := sort_nonempty dlsGe (l := v0 :: vt) (by simp)
        simp only [determine_latest_status, hall, Bool.false_eq_true, if_false, hv,
          hall2, hidem, List.isEmpty_cons, hsort]
  · intro l e hcons hmem hflag
    have hfil := dedupStatusesGo_filter (dedupKey e) l []
    simp only [List.not_mem_nil, if_false] at hfil
    have hne : l.filter (fun x => decide (dedupKey x = dedupKey e)) ≠ [] := by
      have : e ∈ l.filter (fun x => decide (dedupKey x = dedupKey e)) :=
        List.mem_filter.mpr ⟨hmem, by simp⟩
      exact List.ne_nil_of_mem this
    match hf : l.filter (fun x => decide (dedupKey x = dedupKey e)) with
    | [] => exact absurd hf hne
    | f0 :: ft =>
      have hf0mem : f0 ∈ l := (List.mem_filter.mp (hf ▸ List.mem_cons_self f0 ft)).1
      have hf0key : dedupKey f0 = dedupKey e := by
        have := (List.mem_filter.mp (hf ▸ List.mem_cons_self f0 ft)).2
        simpa using this
      have hf0dedup : f0 ∈ dedupStatuses l := by
        have hmemf : f0 ∈ (dedupStatusesGo [] l).filter
            (fun x => decide (dedupKey x = dedupKey e)) := by
          rw [hfil, hf]
          simp
        exact (List.mem_filter.mp hmemf).1
      have hperm : List.Perm (resolve_history l) (dedupStatuses l) :=
        List.perm_insertionSort tsGe (dedupStatuses l)
      refine ⟨f0, hperm.symm.subset hf0dedup, hf0key, ?_⟩
      rw [hcons f0 hf0mem e hmem hf0key]
      exact hflag
  · intro h0 tl hall
    have : (h0 :: tl).all (fun h => h.recipientMismatch) = true :=
      List.all_eq_true.mpr (fun e he => by rw [hall e he])
    simp only [determine_latest_status, this, if_true]

/-- C3 witness: the three conjuncts applied at concrete histories — a
mixed valid/mismatched pair, retention of the mismatched event in the
resolved history, and an all-mismatched singleton. -/
theorem c3_recipient_mismatch_policy_witness :
    determine_latest_status
        [⟨"sent", some 5, none, some "w", "1", false⟩,
         ⟨"read", some 9, none, some "x", "1", true⟩] =
      determine_latest_status
        ([⟨"sent", some 5, none, some "w", "1", false⟩,
          ⟨"read", some 9, none, some "x", "1", true⟩].filter
            (fun h => !h.recipientMismatch)) ∧
    (∃ e2 ∈ resolve_history
        [⟨"sent", some 5, none, some "w", "1", false⟩,
         ⟨"read", some 9, none, some "x", "1", true⟩],
      dedupKey e2 = dedupKey (⟨"read", some 9, none, some "x", "1", true⟩ : StatusEvent) ∧
      e2.recipientMismatch = true) ∧
    determine_latest_status [⟨"sent", some 5, none, some "x", "1", true⟩] =
      ("wa_id_mismatch", some 5) := by
  refine ⟨?_, ?_, ?_⟩
  · exact c3_recipient_mismatch_policy.1 _
      ⟨⟨"sent", some 5, none, some "w", "1", false⟩, List.mem_cons_self _ _, rfl⟩
  · exact c3_recipient_mismatch_policy.2.1 _ _ (by decide) (by decide) rfl
  · exact c3_recipient_mismatch_policy.2.2 _ [] (by decide)

/-!  Helper lemmas for the persistence upserter. -/

theorem updateFirst_congr (store : List StoredDoc) (id : String)
    (f g : StoredDoc → StoredDoc) (h : ∀ x, f x = g x) :
    updateFirst store id f = updateFirst store id g := by
  induction store with
  | nil => rfl
  | cons d rest ih =>
    simp only [updateFirst]
    split
    · rw [h d]
    · rw [ih]

theorem findDoc_append_self (store : List StoredDoc) (id : String) (d : StoredDoc)
    (hnone : findDoc store id = none) (hid : d.messageId = id) :
    findDoc (store ++ [d]) id = some d := by
  induction store with
  | nil => simp [findDoc, List.find?, hid]
  | cons x xs ih =>
    simp only [findDoc, List.cons_append, List.find?] at hnone ⊢
    cases hx : (x.messageId == id) with
    | true => rw [hx] at hnone; exact absurd hnone (by simp)
    | false =>
      rw [hx] at hnone
      exact ih hnone

/-- The scan-only path of the upserter on a singleton batch: equal status
and a not-strictly-newer (present) timestamp refresh `lastScannedAt` only.
-/
theorem save_single_scan (now : Int) (wf : String) (store : List StoredDoc)
    (msg : MessageRecord) (id : String) (d : StoredDoc) (a b : Int)
    (hid : msg.messageId = some id) (hfind : findDoc store id = some d)
    (hst : msg.latestStatus = d.latestStatus)
    (hta : msg.latestTimestamp = some a) (htb : d.latestTimestamp = some b)
    (hle : a ≤ b) :
    save_messages_to_mongodb now wf [msg] store =
      .ok (updateFirst store id (fun e => { e with lastScannedAt := now })) := by
  have hgt : pyGtOpt msg.latestTimestamp d.latestTimestamp = .ok false := by
    rw [hta, htb]
    simp [pyGtOpt, not_lt.mpr hle]
  have hne : decide (msg.latestStatus ≠ d.latestStatus) = false := by
    simp [hst]
  simp only [save_messages_to_mongodb, buildOps, hid, hfind, hgt, hne]
  simp [applyOps, applyOp, Bind.bind, Except.bind]

/-- The content-overwrite path of the upserter on a singleton batch. -/
theorem save_single_content (now : Int) (wf : String) (store : List StoredDoc)
    (msg : MessageRecord) (id : String) (d : StoredDoc) (a b : Int)
    (hid : msg.messageId = some id) (hfind : findDoc store id = some d)
    (hta : msg.latestTimestamp = some a) (htb : d.latestTimestamp = some b)
    (hcond : b < a ∨ msg.latestStatus ≠ d.latestStatus) :
    save_messages_to_mongodb now wf [msg] store =
      .ok (updateFirst store id (fun e =>
        { e with
          conversation_id := msg.waId
          latestStatus := msg.latestStatus
          latestTimestamp := msg.latestTimestamp
          latestTimestampFormatted := msg.latestTimestampFormatted
          statusCount := if msg.history.isEmpty then msg.statusCount.getD 1
                         else (deduplicate_history msg.history).length
          workflowId := wf
          lastUpdatedAt := now
          lastScannedAt := now
          statusHistory := if msg.history.isEmpty then e.statusHistory
                           else some (deduplicate_history msg.history) })) := by
  have hgt : pyGtOpt msg.latestTimestamp d.latestTimestamp = .ok (decide (b < a)) := by
    rw [hta, htb]
    rfl
  have hcond2 : (decide (b < a) || decide (msg.latestStatus ≠ d.latestStatus)) = true := by
    rcases hcond with h | h
    · simp [h]
    · simp [h]
  simp only [save_messages_to_mongodb, buildOps, hid, hfind, hgt, Bind.bind, Except.bind,
    hcond2, if_true]
  simp only [applyOps, applyOp, hfind]
  congr 1
  apply updateFirst_congr
  intro x
  cases hh : msg.history.isEmpty <;> simp [hh]

/-- The insert path of the upserter on a singleton batch. -/
theorem save_single_insert (now : Int) (wf : String) (store : List StoredDoc)
    (msg : MessageRecord) (id : String)
    (hid : msg.messageId = some id) (hfind : findDoc store id = none) :
    save_messages_to_mongodb now wf [msg] store =
      .ok (store ++
        [{ messageId := id
           conversation_id := msg.waId
           latestStatus := msg.latestStatus
           latestTimestamp := msg.latestTimestamp
           latestTimestampFormatted := msg.latestTimestampFormatted
           statusCount := if msg.history.isEmpty then msg.statusCount.getD 1
                          else (deduplicate_history msg.history).length
           workflowId := wf
           firstSeenAt := now
           lastUpdatedAt := now
           lastScannedAt := now
           statusHistory := if msg.history.isEmpty then none
                            else some (deduplicate_history msg.history) }]) := by
  simp only [save_messages_to_mongodb, buildOps, hid, hfind, Bind.bind, Except.bind]
  simp [applyOps, applyOp, hfind]

/-!  Claim C7. -/

/-- C7 (amended): for a persisted document and an incoming record with the
same messageId whose `latestTimestamp` values are both present integers:
if the incoming status equals the stored one and the incoming timestamp is
not strictly greater, the upsert writes only `lastScannedAt` and leaves
every other field unchanged; otherwise it overwrites the status fields and
`statusHistory`, sets `lastUpdatedAt`, and leaves the original
`firstSeenAt` unchanged; and upserting the same record (with a present
timestamp) twice makes zero content modifications on the second call.
(When either `latestTimestamp` is null, the Python comparison raises
`TypeError` instead — see the counterexample.) -/
theorem c7_upsert_frame :
    (∀ (now : Int) (wf : String) (store : List StoredDoc) (msg : MessageRecord)
        (id : String) (d : StoredDoc) (a b : Int),
      msg.messageId = some id → findDoc store id = some d →
      msg.latestStatus = d.latestStatus →
      msg.latestTimestamp = some a → d.latestTimestamp = some b → a ≤ b →
      save_messages_to_mongodb now wf [msg] store =
        .ok (updateFirst store id (fun e => { e with lastScannedAt := now }))) ∧
    (∀ (now : Int) (wf : String) (store : List StoredDoc) (msg : MessageRecord)
        (id : String) (d : StoredDoc) (a b : Int),
      msg.messageId = some id → findDoc store id = some d →
      msg.latestTimestamp = some a → d.latestTimestamp = some b →
      (b < a ∨ msg.latestStatus ≠ d.latestStatus) →
      save_messages_to_mongodb now wf [msg] store =
        .ok (updateFirst store id (fun e =>
          { e with
            conversation_id := msg.waId
            latestStatus := msg.latestStatus
            latestTimestamp := msg.latestTimestamp
            latestTimestampFormatted := msg.latestTimestampFormatted
            statusCount := if msg.history.isEmpty then msg.statusCount.getD 1
                           else (deduplicate_history msg.history).length
            workflowId := wf
            lastUpdatedAt := now
            lastScannedAt := now
            statusHistory := if msg.history.isEmpty then e.statusHistory
                             else some (deduplicate_history msg.history) }))) ∧
    (∀ (now1 now2 : Int) (wf : String) (store : List StoredDoc) (msg : MessageRecord)
        (id : String) (t : Int),
      msg.messageId = some id → findDoc store id = none →
      msg.latestTimestamp = some t →
      ∃ s1, save_messages_to_mongodb now1 wf [msg] store = .ok s1 ∧
        save_messages_to_mongodb now2 wf [msg] s1 =
          .ok (updateFirst s1 id (fun e => { e with lastScannedAt := now2 }))) := by
  refine ⟨save_single_scan, save_single_content, ?_⟩
  intro now1 now2 wf store msg id t hid hfind ht
  refine ⟨_, save_single_insert now1 wf store msg id hid hfind, ?_⟩
  have hfind2 := findDoc_append_self store id
    { messageId := id
      conversation_id := msg.waId
      latestStatus := msg.latestStatus
      latestTimestamp := msg.latestTimestamp
      latestTimestampFormatted := msg.latestTimestampFormatted
      statusCount := if msg.history.isEmpty then msg.statusCount.getD 1
                     else (deduplicate_history msg.history).length
      workflowId := wf
      firstSeenAt := now1
      lastUpdatedAt := now1
      lastScannedAt := now1
      statusHistory := if msg.history.isEmpty then none
                       else some (deduplicate_history msg.history) } hfind rfl
  exact save_single_scan now2 wf _ msg id _ t t hid hfind2 rfl ht ht le_rfl

/-- C7 counterexample: when both `latestTimestamp` values are null (which
the pipeline produces for messages whose events carry no parseable
timestamp), the claim predicts a scan-time-only refresh, but the code
evaluates `None > None`, raises `TypeError`, aborts the batch before
`bulk_write`, and writes nothing at all. -/
theorem c7_counterexample :
    save_messages_to_mongodb 5 "wf"
        [{ messageId := some "m", waId := some "w", latestStatus := some "sent",
           latestTimestamp := none, latestTimestampFormatted := none,
           statusCount := some 1, history := [] }]
        [{ messageId := "m", conversation_id := some "w", latestStatus := some "sent",
           latestTimestamp := none, latestTimestampFormatted := none, statusCount := 1,
           workflowId := "wf", firstSeenAt := 0, lastUpdatedAt := 0, lastScannedAt := 0,
           statusHistory := none }] =
      .error "TypeError: unorderable NoneType comparison" ∧
    ∀ s, save_messages_to_mongodb 5 "wf"
        [{ messageId := some "m", waId := some "w", latestStatus := some "sent",
           latestTimestamp := none, latestTimestampFormatted := none,
           statusCount := some 1, history := [] }]
        [{ messageId := "m", conversation_id := some "w", latestStatus := some "sent",
           latestTimestamp := none, latestTimestampFormatted := none, statusCount := 1,
           workflowId := "wf", firstSeenAt := 0, lastUpdatedAt := 0, lastScannedAt := 0,
           statusHistory := none }] ≠ .ok s := by
  refine ⟨rfl, ?_⟩
  intro s h
  exact Except.noConfusion (rfl.trans h :
    (Except.error "TypeError: unorderable NoneType comparison" :
      Except String (List StoredDoc)) = .ok s)

/-- C7 witness: the scan-only conjunct and the twice-upsert conjunct at a
concrete record and store. -/
theorem c7_upsert_frame_witness :
    save_messages_to_mongodb 9 "wf"
        [{ messageId := some "m", waId := some "w", latestStatus := some "sent",
           latestTimestamp := some 10, latestTimestampFormatted := none,
           statusCount := some 1, history := [] }]
        [{ messageId := "m", conversation_id := some "w", latestStatus := some "sent",
           latestTimestamp := some 10, latestTimestampFormatted := none, statusCount := 1,
           workflowId := "wf", firstSeenAt := 2, lastUpdatedAt := 2, lastScannedAt := 2,
           statusHistory := none }] =
      .ok (updateFirst
        [{ messageId := "m", conversation_id := some "w", latestStatus := some "sent",
           latestTimestamp := some 10, latestTimestampFormatted := none, statusCount := 1,
           workflowId := "wf", firstSeenAt := 2, lastUpdatedAt := 2, lastScannedAt := 2,
           statusHistory := none }] "m" (fun e => { e with lastScannedAt := 9 })) ∧
    (∃ s1, save_messages_to_mongodb 3 "wf"
        [{ messageId := some "m2", waId := some "w", latestStatus := some "read",
           latestTimestamp := some 7, latestTimestampFormatted := none,
           statusCount := some 1, history := [] }] [] = .ok s1 ∧
      save_messages_to_mongodb 4 "wf"
        [{ messageId := some "m2", waId := some "w", latestStatus := some "read",
           latestTimestamp := some 7, latestTimestampFormatted := none,
           statusCount := some 1, history := [] }] s1 =
        .ok (updateFirst s1 "m2" (fun e => { e with lastScannedAt := 4 }))) := by
  constructor
  · exact c7_upsert_frame.1 9 "wf" _ _ "m" _ 10 10 rfl rfl rfl rfl rfl le_rfl
  · exact c7_upsert_frame.2.2 3 4 "wf" [] _ "m2" 7 rfl rfl rfl

/-!  Claim C10. -/

/-- C10: `deduplicate_history` identifies duplicates by
`(status, timestamp, executionId)` only — events agreeing on those three
fields are duplicates even when their recipient id or mismatch flag differ
— keeping exactly the first occurrence of each key in input order (the
result is a sublist of the input whose occurrences of any key are the take
of the first matching event); and both persistence paths store
`statusHistory = deduplicate_history history` with `statusCount` equal to
its length whenever the incoming history is non-empty. -/
theorem c10_history_dedup_key :
    (∀ l : List StatusEvent, (deduplicate_history l).Sublist l) ∧
    (∀ (l : List StatusEvent) (k : String × Option Int × String),
      (deduplicate_history l).filter (fun e => decide (historyKey e = k)) =
        (l.filter (fun e => decide (historyKey e = k))).take 1) ∧
    (∀ (now : Int) (wf : String) (store : List StoredDoc) (msg : MessageRecord)
        (id : String),
      msg.messageId = some id → findDoc store id = none → msg.history ≠ [] →
      save_messages_to_mongodb now wf [msg] store =
        .ok (store ++
          [{ messageId := id
             conversation_id := msg.waId
             latestStatus := msg.latestStatus
             latestTimestamp := msg.latestTimestamp
             latestTimestampFormatted := msg.latestTimestampFormatted
             statusCount := (deduplicate_history msg.history).length
             workflowId := wf
             firstSeenAt := now
             lastUpdatedAt := now
             lastScannedAt := now
             statusHistory := some (deduplicate_history msg.history) }])) ∧
    (∀ (now : Int) (wf : String) (store : List StoredDoc) (msg : MessageRecord)
        (id : String) (d : StoredDoc) (a b : Int),
      msg.messageId = some id → findDoc store id = some d →
      msg.latestTimestamp = some a → d.latestTimestamp = some b →
      (b < a ∨ msg.latestStatus ≠ d.latestStatus) → msg.history ≠ [] →
      save_messages_to_mongodb now wf [msg] store =
        .ok (updateFirst store id (fun e =>
          { e with
            conversation_id := msg.waId
            latestStatus := msg.latestStatus
            latestTimestamp := msg.latestTimestamp
            latestTimestampFormatted := msg.latestTimestampFormatted
            statusCount := (deduplicate_history msg.history).length
            workflowId := wf
            lastUpdatedAt := now
            lastScannedAt := now
            statusHistory := some (deduplicate_history msg.history) }))) := by
  have hemp : ∀ (l : List StatusEvent), l ≠ [] → l.isEmpty = false := by
    intro l hl
    cases l with
    | nil => exact absurd rfl hl
    | cons x xs => rfl
  refine ⟨deduplicateHistoryGo_sublist [], ?_, ?_, ?_⟩
  · intro l k
    have hfil := deduplicateHistoryGo_filter k l []
    simp only [List.not_mem_nil, if_false] at hfil
    exact hfil
  · intro now wf store msg id hid hfind hne
    rw [save_single_insert now wf store msg id hid hfind]
    simp [hemp msg.history hne]
  · intro now wf store msg id d a b hid hfind hta htb hcond hne
    rw [save_single_content now wf store msg id d a b hid hfind hta htb hcond]
    congr 1
    exact updateFirst_congr store id _ _ (fun x => by simp [hemp msg.history hne])

/-- C10 witness: two events agreeing on `(status, timestamp, executionId)`
but differing in recipient id and mismatch flag collapse to the first; the
insert path persists the deduplicated history and its length. -/
theorem c10_history_dedup_key_witness :
    deduplicate_history
        [⟨"sent", some 5, none, some "w1", "1", false⟩,
         ⟨"sent", some 5, none, some "w2", "1", true⟩] =
      [⟨"sent", some 5, none, some "w1", "1", false⟩] ∧
    save_messages_to_mongodb 6 "wf"
        [{ messageId := some "m", waId := some "w1", latestStatus := some "sent",
           latestTimestamp := some 5, latestTimestampFormatted := none,
           statusCount := some 2,
           history := [⟨"sent", some 5, none, some "w1", "1", false⟩,
                       ⟨"sent", some 5, none, some "w2", "1", true⟩] }] [] =
      .ok [{ messageId := "m"
             conversation_id := some "w1"
             latestStatus := some "sent"
             latestTimestamp := some 5
             latestTimestampFormatted := none
             statusCount := (deduplicate_history
               [⟨"sent", some 5, none, some "w1", "1", false⟩,
                ⟨"sent", some 5, none, some "w2", "1", true⟩]).length
             workflowId := "wf"
             firstSeenAt := 6
             lastUpdatedAt := 6
             lastScannedAt := 6
             statusHistory := some (deduplicate_history
               [⟨"sent", some 5, none, some "w1", "1", false⟩,
                ⟨"sent", some 5, none, some "w2", "1", true⟩]) }] := by
  constructor
  · decide
  · exact c10_history_dedup_key.2.2.1 6 "wf" []
      { messageId := some "m", waId := some "w1", latestStatus := some "sent",
        latestTimestamp := some 5, latestTimestampFormatted := none,
        statusCount := some 2,
        history := [⟨"sent", some 5, none, some "w1", "1", false⟩,
                    ⟨"sent", some 5, none, some "w2", "1", true⟩] }
      "m" rfl rfl (by decide)

/-!  Helper lemmas for the retry loop. -/

/-- A failed attempt: either a transport exception or a response whose
status code is classified transient. -/
def attemptFails (r : Except String HttpResponse) : Prop :=
  match r with
  | .error _ => True
  | .ok resp => transientCodes.contains resp.status_code = true

theorem retryGo_congr (a1 a2 : Nat → Except String HttpResponse) (rand : Nat → Rat) :
    ∀ (r a : Nat), (∀ k, a ≤ k → k < a + r → a1 k = a2 k) →
      retryGo a1 rand r a = retryGo a2 rand r a := by
  intro r
  induction r with
  | zero => intro a _; rfl
  | succ n ih =>
    intro a h
    have ha : a1 a = a2 a := h a le_rfl (by omega)
    simp only [retryGo, ha]
    have hrec : retryGo a1 rand n (a + 1) = retryGo a2 rand n (a + 1) :=
      ih (a + 1) (fun k hk1 hk2 => h k (by omega) (by omega))
    rw [hrec]

theorem retryGo_length (attempts : Nat → Except String HttpResponse) (rand : Nat → Rat) :
    ∀ (r a : Nat), (retryGo attempts rand r a).2.length ≤ r - 1 := by
  intro r
  induction r with
  | zero => intro a; simp [retryGo]
  | succ n ih =>
    intro a
    simp only [retryGo]
    have hrec := ih (a + 1)
    split
    · split
      · split
        · simp
        · rename_i hn
          have hn2 : n ≠ 0 := by simpa using hn
          show (retryGo attempts rand n (a + 1)).2.length + 1 ≤ n + 1 - 1
          omega
      · simp
    · split
      · simp
      · rename_i hn
        have hn2 : n ≠ 0 := by simpa using hn
        show (retryGo attempts rand n (a + 1)).2.length + 1 ≤ n + 1 - 1
        omega

theorem retryGo_delay_getD (attempts : Nat → Except String HttpResponse) (rand : Nat → Rat) :
    ∀ (r a i : Nat), i < (retryGo attempts rand r a).2.length →
      (retryGo attempts rand r a).2.getD i 0 = backoffDelay (a + i) (rand (a + i)) := by
  intro r
  induction r with
  | zero => intro a i hi; simp [retryGo] at hi
  | succ n ih =>
    intro a i
    simp only [retryGo]
    split
    · rename_i resp _
      split
      · split
        · intro hi; simp at hi
        · intro hi
          cases i with
          | zero => simp
          | succ j =>
            have hi2 : j + 1 < (retryGo attempts rand n (a + 1)).2.length + 1 := hi
            have hj : j < (retryGo attempts rand n (a + 1)).2.length := by omega
            show (retryGo attempts rand n (a + 1)).2.getD j 0 =
              backoffDelay (a + (j + 1)) (rand (a + (j + 1)))
            rw [show a + (j + 1) = a + 1 + j by omega]
            exact ih (a + 1) j hj
      · intro hi; simp at hi
    · split
      · intro hi; simp at hi
      · intro hi
        cases i with
        | zero => simp
        | succ j =>
          have hi2 : j + 1 < (retryGo attempts rand n (a + 1)).2.length + 1 := hi
          have hj : j < (retryGo attempts rand n (a + 1)).2.length := by omega
          show (retryGo attempts rand n (a + 1)).2.getD j 0 =
            backoffDelay (a + (j + 1)) (rand (a + (j + 1)))
          rw [show a + (j + 1) = a + 1 + j by omega]
          exact ih (a + 1) j hj

theorem retryGo_all_fail (attempts : Nat → Except String HttpResponse) (rand : Nat → Rat)
    (msg : String) :
    ∀ (r a : Nat), (∀ k, a ≤ k → k < a + r → attemptFails (attempts k)) →
      attempts (a + r) = .error msg →
      (retryGo attempts rand (r + 1) a).1 = .error msg := by
  intro r
  induction r with
  | zero =>
    intro a _ hlast
    rw [Nat.add_zero] at hlast
    simp [retryGo, hlast]
  | succ n ih =>
    intro a hfail hlast
    have ha := hfail a le_rfl (by omega)
    simp only [retryGo]
    match hatt : attempts a with
    | .ok resp =>
      have ht : transientCodes.contains resp.status_code = true := by
        have := ha
        rw [hatt] at this
        exact this
      simp only [ht, if_true]
      have hn : ((n + 1 : Nat) == 0) = false := by simp
      simp only [hn, if_false]
      exact ih (a + 1) (fun k hk1 hk2 => hfail k (by omega) (by omega))
        (by rw [show a + 1 + n = a + (n + 1) by omega]; exact hlast)
    | .error e =>
      have hn : ((n + 1 : Nat) == 0) = false := by simp
      simp only [hn, if_false]
      exact ih (a + 1) (fun k hk1 hk2 => hfail k (by omega) (by omega))
        (by rw [show a + 1 + n = a + (n + 1) by omega]; exact hlast)

/-!  Claim C8. -/

/-- C8: the retry loop makes at most 5 attempts (its outcome depends only
on attempts 1..5, and at most 4 backoff sleeps happen); the i-th sleep (0-
based, after 1-indexed attempt i+1) is exactly
`0.6 * 2^i + random() * 0.3`, hence lies in `[0.6 * 2^i, 0.6 * 2^i + 0.3)`
for `random()` in `[0,1)`; transient status codes {429,500,502,503,504}
are retried exactly like transport exceptions and, when they persist, the
transient classification error is what surfaces; and if the 5th attempt
fails with a transport error, that error propagates to the caller
unmodified. -/
theorem c8_retry_policy :
    (∀ (a1 a2 : Nat → Except String HttpResponse) (rand : Nat → Rat),
      (∀ k, 1 ≤ k → k ≤ 5 → a1 k = a2 k) →
      request_with_retry a1 rand 5 = request_with_retry a2 rand 5) ∧
    (∀ (attempts : Nat → Except String HttpResponse) (rand : Nat → Rat),
      (request_with_retry attempts rand 5).2.length ≤ 4) ∧
    (∀ (attempts : Nat → Except String HttpResponse) (rand : Nat → Rat) (i : Nat),
      i < (request_with_retry attempts rand 5).2.length →
      (request_with_retry attempts rand 5).2.getD i 0 =
        (2 : Rat) ^ i * (6 / 10) + rand (1 + i) * (3 / 10)) ∧
    (∀ (rand : Nat → Rat) (i : Nat), (∀ k, 0 ≤ rand k ∧ rand k < 1) →
      (2 : Rat) ^ i * (6 / 10) ≤ (2 : Rat) ^ i * (6 / 10) + rand (1 + i) * (3 / 10) ∧
      (2 : Rat) ^ i * (6 / 10) + rand (1 + i) * (3 / 10) <
        (2 : Rat) ^ i * (6 / 10) + 3 / 10) ∧
    (∀ (resp : HttpResponse) (rand : Nat → Rat),
      transientCodes.contains resp.status_code = true →
      request_with_retry (fun _ => .ok resp) rand 5 =
        (.error ("HTTP " ++ toString resp.status_code),
         [backoffDelay 1 (rand 1), backoffDelay 2 (rand 2),
          backoffDelay 3 (rand 3), backoffDelay 4 (rand 4)])) ∧
    (∀ (msg : String) (rand : Nat → Rat),
      request_with_retry (fun _ => .error msg) rand 5 =
        (.error msg,
         [backoffDelay 1 (rand 1), backoffDelay 2 (rand 2),
          backoffDelay 3 (rand 3), backoffDelay 4 (rand 4)])) ∧
    (∀ (attempts : Nat → Except String HttpResponse) (rand : Nat → Rat) (msg : String),
      (∀ k, 1 ≤ k → k ≤ 4 → attemptFails (attempts k)) →
      attempts 5 = .error msg →
      (request_with_retry attempts rand 5).1 = .error msg) := by
  refine ⟨?_, ?_, ?_, ?_, ?_, ?_, ?_⟩
  · intro a1 a2 rand h
    exact retryGo_congr a1 a2 rand 5 1 (fun k hk1 hk2 => h k hk1 (by omega))
  · intro attempts rand
    exact retryGo_length attempts rand 5 1
  · intro attempts rand i hi
    show (retryGo attempts rand 5 1).2.getD i 0 = _
    rw [retryGo_delay_getD attempts rand 5 1 i hi]
    simp [backoffDelay]
  · intro rand i hrand
    constructor
    · nlinarith [(hrand (1 + i)).1, pow_pos (show (0:Rat) < 2 by norm_num) i]
    · nlinarith [(hrand (1 + i)).2, pow_pos (show (0:Rat) < 2 by norm_num) i]
  · intro resp rand ht
    have hm : resp.status_code ∈ transientCodes := by simpa using ht
    simp [request_with_retry, retryGo, hm]
  · intro msg rand
    simp [request_with_retry, retryGo]
  · intro attempts rand msg hfail hlast
    exact retryGo_all_fail attempts rand msg 4 1
      (fun k hk1 hk2 => hfail k hk1 (by omega)) hlast

/-- C8 witness: the retry conjuncts applied at a concrete transport layer
that always fails, a concrete transient 500 response, concrete jitter, and
an attempts function perturbed only beyond attempt 5. -/
theorem c8_retry_policy_witness :
    request_with_retry (fun _ => .error "boom") (fun _ => 0) 5 =
      request_with_retry
        (fun k => if k ≤ 5 then .error "boom" else .ok ⟨200, .null⟩) (fun _ => 0) 5 ∧
    (request_with_retry (fun _ => .error "boom") (fun _ => 0) 5).2.getD 0 0 =
      (2 : Rat) ^ 0 * (6 / 10) + 0 * (3 / 10) ∧
    ((2 : Rat) ^ 3 * (6 / 10) ≤
        (2 : Rat) ^ 3 * (6 / 10) + (fun (_ : Nat) => (1 / 2 : Rat)) (1 + 3) * (3 / 10) ∧
      (2 : Rat) ^ 3 * (6 / 10) + (fun (_ : Nat) => (1 / 2 : Rat)) (1 + 3) * (3 / 10) <
        (2 : Rat) ^ 3 * (6 / 10) + 3 / 10) ∧
    request_with_retry (fun _ => .ok ⟨500, .null⟩) (fun _ => 0) 5 =
      (.error ("HTTP " ++ toString 500),
       [backoffDelay 1 0, backoffDelay 2 0, backoffDelay 3 0, backoffDelay 4 0]) ∧
    (request_with_retry (fun _ => .error "boom") (fun _ => 0) 5).1 = .error "boom" := by
  have hlen : request_with_retry (fun _ => .error "boom") (fun _ => 0) 5 =
      (.error "boom",
       [backoffDelay 1 0, backoffDelay 2 0, backoffDelay 3 0, backoffDelay 4 0]) :=
    c8_retry_policy.2.2.2.2.2.1 "boom" (fun _ => 0)
  refine ⟨?_, ?_, ?_, ?_, ?_⟩
  · exact c8_retry_policy.1 (fun _ => .error "boom")
      (fun k => if k ≤ 5 then .error "boom" else .ok ⟨200, .null⟩) (fun _ => 0)
      (fun k hk1 hk2 => by simp [hk2])
  · exact c8_retry_policy.2.2.1 (fun _ => .error "boom") (fun _ => 0) 0
      (by rw [hlen]; simp)
  · exact c8_retry_policy.2.2.2.1 (fun _ => (1 / 2 : Rat)) 3
      (fun k => by norm_num)
  · exact c8_retry_policy.2.2.2.2.1 ⟨500, .null⟩ (fun _ => 0) (by decide)
  · exact c8_retry_policy.2.2.2.2.2.2 (fun _ => .error "boom") (fun _ => 0) "boom"
      (fun k hk1 hk2 => trivial) rfl

/-!  Claim C9. -/

deriving instance DecidableEq for Except

/-- C9 (amended): the display formatter maps absence to absence; for every
integer within the platform `time_t` range it returns without raising —
either the Unix-seconds value rendered in the fixed UTC+3 offset as
`YYYY-MM-DD HH:MM` (concrete renderings checked at 0, 1767000000 and
-86400) or absent when the shifted civil year falls outside 1..9999; but
integers outside the `time_t` range raise `OverflowError`, which the
`except (ValueError, OSError)` clause does not catch. -/
theorem c9_format_timestamp :
    format_timestamp none = .ok none ∧
    (∀ t : Int, timeTMin ≤ t → t ≤ timeTMax →
      ∃ v, format_timestamp (some t) = .ok v) ∧
    (∀ t : Int, t < timeTMin ∨ timeTMax < t →
      format_timestamp (some t) =
        .error "OverflowError: timestamp out of range for platform time_t") ∧
    format_timestamp (some 0) = .ok (some "1970-01-01 03:00") ∧
    format_timestamp (some 1767000000) = .ok (some "2025-12-29 12:20") ∧
    format_timestamp (some (-86400)) = .ok (some "1969-12-31 03:00") ∧
    format_timestamp (some 253402300800) = .ok none := by
  refine ⟨rfl, ?_, ?_, by decide, by decide, by decide, by decide⟩
  · intro t h1 h2
    have hno : ¬ (t < timeTMin ∨ timeTMax < t) := by omega
    simp only [format_timestamp, if_neg hno]
    split
    · exact ⟨_, rfl⟩
    · exact ⟨_, rfl⟩
  · intro t h
    simp only [format_timestamp, if_pos h]

/-- C9 counterexample: at input `10^25` the formatter does not return a
rendering or absence — `datetime.fromtimestamp` raises `OverflowError`,
which is not among the caught exception classes, so the call raises. -/
theorem c9_counterexample :
    format_timestamp (some (10 ^ 25)) =
      .error "OverflowError: timestamp out of range for platform time_t" ∧
    ∀ v, format_timestamp (some (10 ^ 25)) ≠ .ok v := by
  refine ⟨by decide, ?_⟩
  intro v h
  rw [(by decide : format_timestamp (some (10 ^ 25)) =
    .error "OverflowError: timestamp out of range for platform time_t")] at h
  exact Except.noConfusion h

/-- C9 witness: the in-range totality conjunct at 0 and the overflow
conjunct at `2^64`. -/
theorem c9_format_timestamp_witness :
    (∃ v, format_timestamp (some 0) = .ok v) ∧
    format_timestamp (some (2 ^ 64)) =
      .error "OverflowError: timestamp out of range for platform time_t" := by
  constructor
  · exact c9_format_timestamp.2.1 0 (by decide) (by decide)
  · exact c9_format_timestamp.2.2.1 (2 ^ 64) (by decide)

/-!  Helper lemmas for the execution fetcher. -/

theorem fetch_loop_calls (server : Nat → Option String → Nat → HttpResponse) (limit : Nat)
    (iter fetched : Nat) (cursor : Option JValue) (out : List JValue) :
    (fetch_loop server limit iter fetched cursor out).2 ≤ iter + (limit - fetched) := by
  induction iter, fetched, cursor, out using fetch_loop.induct server limit with
  | case1 iter fetched cursor out hlt e hqc =>
    rw [fetch_loop.eq_def, dif_pos hlt]
    simp only [hqc]
    omega
  | case2 iter fetched cursor out hlt qc hqc e hresp =>
    rw [fetch_loop.eq_def, dif_pos hlt]
    simp only [hqc, hresp]
    omega
  | case3 iter fetched cursor out hlt qc hqc resp hresp hst =>
    rw [fetch_loop.eq_def, dif_pos hlt]
    simp only [hqc, hresp, if_pos hst]
    omega
  | case4 iter fetched cursor out hlt qc hqc resp hresp hst e hdata =>
    rw [fetch_loop.eq_def, dif_pos hlt]
    simp only [hqc, hresp, if_neg hst, hdata]
    omega
  | case5 iter fetched cursor out hlt qc hqc resp hresp hst nc hdata e hexec =>
    rw [fetch_loop.eq_def, dif_pos hlt]
    simp only [hqc, hresp, if_neg hst, hdata, hexec]
    omega
  | case6 iter fetched cursor out hlt qc hqc resp hresp hst nc hdata nc1 hexec e hiterr =>
    rw [fetch_loop.eq_def, dif_pos hlt]
    simp only [hqc, hresp, if_neg hst, hdata, hexec, hiterr]
    omega
  | case7 iter fetched cursor out hlt qc hqc resp hresp hst nc hdata nc1 hexec batch hbat
      e hnext =>
    rw [fetch_loop.eq_def, dif_pos hlt]
    simp only [hqc, hresp, if_neg hst, hdata, hexec, hbat, hnext]
    omega
  | case8 iter fetched cursor out hlt qc hqc resp hresp hst nc hdata nc1 hexec batch hbat
      nc2 hnext hbr =>
    rw [fetch_loop.eq_def, dif_pos hlt]
    simp only [hqc, hresp, if_neg hst, hdata, hexec, hbat, hnext, hbr, if_pos]
    omega
  | case9 iter fetched cursor out hlt qc hqc resp hresp hst nc hdata nc1 hexec batch hbat
      nc2 hnext hbr ih =>
    rw [fetch_loop.eq_def, dif_pos hlt]
    simp only [hqc, hresp, if_neg hst, hdata, hexec, hbat, hnext]
    rw [if_neg hbr]
    have hlen : 0 < batch.length := by
      simp only [Bool.or_eq_true, not_or, Bool.not_eq_true] at hbr
      rcases batch with _ | ⟨x, xs⟩
      · simp [List.isEmpty] at hbr
      · simp
    have heq : fetch_loop server limit (iter + 1) (fetched + batch.length)
          (if h : truthy nc2 = true then some nc2 else none) (out ++ batch) =
        fetch_loop server limit (iter + 1) (fetched + batch.length)
          (if truthy nc2 = true then some nc2 else none) (out ++ batch) := rfl
    rw [heq] at ih
    omega
  | case10 iter fetched cursor out hge =>
    rw [fetch_loop.eq_def, dif_neg hge]
    omega

/-- A listing endpoint that always answers with the same continuation
cursor and a non-empty (one-record) batch — the spec's adversarial mock. -/
def echoServer : Nat → Option String → Nat → HttpResponse :=
  fun _ _ _ => ⟨200, .obj [("data", .arr [.obj []]), ("nextCursor", .str "c")]⟩

/-- A listing endpoint returning one page with no continuation cursor. -/
def onePageServer : Nat → Option String → Nat → HttpResponse :=
  fun _ _ _ => ⟨200, .obj [("data", .arr [.obj [("id", .num 7)]])]⟩

/-- A listing endpoint returning an empty batch together with a cursor. -/
def emptyPageServer : Nat → Option String → Nat → HttpResponse :=
  fun _ _ _ => ⟨200, .obj [("data", .arr []), ("nextCursor", .str "c")]⟩

theorem fetch_loop_echo (limit : Nat) :
    ∀ (rem iter fetched : Nat) (cursor : Option JValue) (out : List JValue),
      limit - fetched = rem →
      (cursor = none ∨ cursor = some (.str "c")) →
      fetch_loop echoServer limit iter fetched cursor out =
        (.ok (out ++ List.replicate rem (JValue.obj [])), iter + rem) := by
  intro rem
  induction rem with
  | zero =>
    intro iter fetched cursor out hrem hcur
    rw [fetch_loop.eq_def, dif_neg (by omega)]
    simp
  | succ n ih =>
    intro iter fetched cursor out hrem hcur
    have hlt : fetched < limit := by omega
    have hrec := ih (iter + 1) (fetched + 1) (some (.str "c")) (out ++ [JValue.obj []])
      (by omega) (Or.inr rfl)
    rcases hcur with rfl | rfl
    · rw [fetch_loop.eq_def, dif_pos hlt]
      show fetch_loop echoServer limit (iter + 1) (fetched + 1)
          (some (.str "c")) (out ++ [JValue.obj []]) =
        (.ok (out ++ List.replicate (n + 1) (JValue.obj [])), iter + (n + 1))
      rw [hrec]
      congr 1
      · congr 1
        simp [List.replicate_succ]
      · omega
    · rw [fetch_loop.eq_def, dif_pos hlt]
      show fetch_loop echoServer limit (iter + 1) (fetched + 1)
          (some (.str "c")) (out ++ [JValue.obj []]) =
        (.ok (out ++ List.replicate (n + 1) (JValue.obj [])), iter + (n + 1))
      rw [hrec]
      congr 1
      · congr 1
        simp [List.replicate_succ]
      · omega

/-!  Claim C5. -/

/-- C5: the pagination loop always terminates — it issues at most N
listing requests for a target count N (so even a server echoing the same
cursor forever with non-empty batches cannot loop indefinitely) — and the
returned list never exceeds N records; the loop stops on reaching the
count (echo server: exactly N records in N single-record pages), on a
response with no continuation cursor (one call), or on an empty page (one
call), whichever comes first. -/
theorem c5_pagination_termination :
    (∀ (server : Nat → Option String → Nat → HttpResponse) (limit : Nat)
        (res : List JValue),
      fetch_executions server limit = .ok res → res.length ≤ limit) ∧
    (∀ (server : Nat → Option String → Nat → HttpResponse) (limit : Nat),
      fetch_calls server limit ≤ limit) ∧
    (∀ limit : Nat,
      fetch_executions echoServer limit = .ok (List.replicate limit (JValue.obj [])) ∧
      fetch_calls echoServer limit = limit) ∧
    (fetch_executions onePageServer 200 = .ok [JValue.obj [("id", JValue.num 7)]] ∧
      fetch_calls onePageServer 200 = 1) ∧
    (fetch_executions emptyPageServer 200 = .ok [] ∧
      fetch_calls emptyPageServer 200 = 1) := by
  have honep : fetch_loop onePageServer 200 0 0 none [] =
      (.ok [JValue.obj [("id", JValue.num 7)]], 1) := by
    rw [fetch_loop.eq_def]
    rfl
  have hempty : fetch_loop emptyPageServer 200 0 0 none [] = (.ok [], 1) := by
    rw [fetch_loop.eq_def]
    rfl
  refine ⟨?_, ?_, ?_, ?_, ?_⟩
  · intro server limit res h
    unfold fetch_executions at h
    match hl : (fetch_loop server limit 0 0 none []).1 with
    | .ok out =>
      rw [hl] at h
      have : res = out.take limit := by
        have := h
        simp at this
        exact this.symm
      rw [this]
      simp [List.length_take]
    | .error e =>
      rw [hl] at h
      exact Except.noConfusion h
  · intro server limit
    have := fetch_loop_calls server limit 0 0 none []
    simpa using this
  · intro limit
    have h := fetch_loop_echo limit limit 0 0 none [] (by omega) (Or.inl rfl)
    constructor
    · unfold fetch_executions
      rw [h]
      simp [List.take_replicate]
    · unfold fetch_calls
      rw [h]
      simp
  · constructor
    · unfold fetch_executions
      rw [honep]
      rfl
    · unfold fetch_calls
      rw [honep]
  · constructor
    · unfold fetch_executions
      rw [hempty]
      rfl
    · unfold fetch_calls
      rw [hempty]

/-- C5 witness: the length-bound conjunct applied to the one-page server's
concrete fetch result. -/
theorem c5_pagination_termination_witness :
    fetch_executions onePageServer 200 = .ok [JValue.obj [("id", JValue.num 7)]] ∧
    [JValue.obj [("id", JValue.num 7)]].length ≤ 200 :=
  ⟨c5_pagination_termination.2.2.2.1.1,
   c5_pagination_termination.1 onePageServer 200 _ c5_pagination_termination.2.2.2.1.1⟩

/-!  Claim C4. -/

/-- C4 (amended): once a terminal status is observed, the scan loop stops
— when the first execution yields (after the `since` filter) a non-empty
status list containing a terminal status, exactly one execution is scanned
no matter how many follow.  Executions themselves are fetched eagerly:
`fetch_executions` retrieves up to the limit BEFORE scanning starts, so
later executions are still fetched, just never scanned (see the
counterexample). -/
theorem c4_early_exit :
    ∀ (message_id wa_id : String) (since : Option Int) (ex : JValue)
      (rest : List JValue) (statuses0 : List StatusEvent),
      extract_status_updates ex message_id wa_id = .ok statuses0 →
      (sinceFilter since statuses0).isEmpty = false →
      (sinceFilter since statuses0).any (fun s => is_terminal_status s.status) = true →
      track_scan_loop message_id wa_id since (ex :: rest) =
        (sinceFilter since statuses0, 1) := by
  intro message_id wa_id since ex rest statuses0 hex hemp hterm
  simp only [track_scan_loop, hex, hemp, hterm, Bool.false_eq_true, if_false, if_true]

/-- The status object of the early-exit scenario: a `read` for `m1`. -/
def statusReadObj : JValue :=
  .obj [("id", .str "m1"), ("status", .str "read"),
        ("timestamp", .num 100), ("recipient_id", .str "w1")]

/-- The webhook body wrapping `statusReadObj`. -/
def runRead : JValue :=
  .obj [("data", .obj [("main", .arr [.arr
    [.obj [("json", .obj [("body", .obj [("statuses", .arr [statusReadObj])])])]]])])]

/-- First execution of the early-exit scenario: one node run whose output
carries the `read` status event for message `m1`. -/
def exRead : JValue :=
  .obj [("id", .num 1),
    ("data", .obj [("resultData", .obj [("runData",
      .obj [("Webhook", .arr [runRead])])])])]

/-- Second execution of the scenario (no status data). -/
def exEmpty2 : JValue := .obj [("id", .num 2)]

/-- Third execution of the scenario (no status data). -/
def exEmpty3 : JValue := .obj [("id", .num 3)]

/-- The scenario's listing endpoint: one page with all three executions. -/
def threeExecServer : Nat → Option String → Nat → HttpResponse :=
  fun _ _ _ => ⟨200, .obj [("data", .arr [exRead, exEmpty2, exEmpty3])]⟩

/-- C4 counterexample: in the 3-execution scenario the fetch phase
retrieves ALL three executions (fetching happens before scanning, so the
second and third executions ARE fetched), while the scan phase stops after
the first — refuting "the second and third executions are never fetched".
-/
theorem c4_counterexample :
    fetch_executions threeExecServer 200 = .ok [exRead, exEmpty2, exEmpty3] ∧
    track_scan_loop "m1" "w1" none [exRead, exEmpty2, exEmpty3] =
      ([⟨"read", some 100, some "1970-01-01 03:01", some "w1", "1", false⟩], 1) := by
  constructor
  · have h : fetch_loop threeExecServer 200 0 0 none [] =
        (.ok [exRead, exEmpty2, exEmpty3], 1) := by
      rw [fetch_loop.eq_def]
      rfl
    unfold fetch_executions
    rw [h]
    rfl
  · decide

/-- C4 witness: the early-exit theorem applied to the concrete scenario. -/
theorem c4_early_exit_witness :
    extract_status_updates exRead "m1" "w1" =
      .ok [⟨"read", some 100, some "1970-01-01 03:01", some "w1", "1", false⟩] ∧
    track_scan_loop "m1" "w1" none [exRead, exEmpty2, exEmpty3] =
      (sinceFilter none
        [⟨"read", some 100, some "1970-01-01 03:01", some "w1", "1", false⟩], 1) := by
  have hex : extract_status_updates exRead "m1" "w1" =
      .ok [⟨"read", some 100, some "1970-01-01 03:01", some "w1", "1", false⟩] := by
    decide
  exact ⟨hex, c4_early_exit "m1" "w1" none exRead [exEmpty2, exEmpty3] _ hex
    (by decide) (by decide)⟩

/-!  Helper lemmas for the extractor's shape-tolerance class. -/

/-- Whether a modelled Python computation returned without raising. -/
def isOkE {α : Type} : Except String α → Bool
  | .ok _ => true
  | .error _ => false

theorem isOkE_ok {α : Type} {x : Except String α} (h : isOkE x = true) : ∃ v, x = .ok v := by
  match x with
  | .ok v => exact ⟨v, rfl⟩
  | .error e => simp [isOkE] at h

theorem format_ok_of_tsOk (t : Option Int) (h : tsOk t = true) :
    ∃ v, format_timestamp t = .ok v := by
  match t with
  | none => exact ⟨none, rfl⟩
  | some n =>
    simp only [tsOk, decide_eq_true_eq] at h
    have hno : ¬ (n < timeTMin ∨ timeTMax < n) := by omega
    simp only [format_timestamp, if_neg hno]
    split
    · exact ⟨_, rfl⟩
    · exact ⟨_, rfl⟩

theorem extractFromStatusList_ok (eid mid wa : String) :
    ∀ ss : List JValue, ss.all (statusObjOk mid) = true →
      isOkE (extractFromStatusList eid mid wa ss) = true := by
  intro ss
  induction ss with
  | nil => intro _; rfl
  | cons s rest ih =>
    intro hall
    rw [List.all_cons, Bool.and_eq_true] at hall
    obtain ⟨hs, hrest⟩ := hall
    have htl := ih hrest
    obtain ⟨tl, htl2⟩ := isOkE_ok htl
    match s with
    | .null => simpa [extractFromStatusList] using htl
    | .bool b => simpa [extractFromStatusList] using htl
    | .num n => simpa [extractFromStatusList] using htl
    | .str t => simpa [extractFromStatusList] using htl
    | .arr xs => simpa [extractFromStatusList] using htl
    | .obj fs =>
      simp only [extractFromStatusList]
      by_cases hid : jEqStr (jget (.obj fs) "id" (.str "")) mid
      · have hts : tsOk (normalize_timestamp (jget (.obj fs) "timestamp" .null)) = true := by
          simpa [statusObjOk, hid] using hs
        obtain ⟨v, hv⟩ := format_ok_of_tsOk _ hts
        simp [hid, hv, htl2, Bind.bind, Except.bind, isOkE]
      · simpa [hid] using htl

theorem except_bind_ok {α β : Type} (a : α) (f : α → Except String β) :
    Except.bind (.ok a) f = f a := rfl

theorem extractFromItems_ok (eid mid wa : String) :
    ∀ items : List JValue, items.all (itemOk mid) = true →
      isOkE (extractFromItems eid mid wa items) = true := by
  intro items
  induction items with
  | nil => intro _; rfl
  | cons item rest ih =>
    intro hall
    rw [List.all_cons, Bool.and_eq_true] at hall
    obtain ⟨hi, hrest⟩ := hall
    have htl := ih hrest
    obtain ⟨tl, htl2⟩ := isOkE_ok htl
    match item with
    | .null => simpa [extractFromItems] using htl
    | .bool b => simpa [extractFromItems] using htl
    | .num n => simpa [extractFromItems] using htl
    | .str t => simpa [extractFromItems] using htl
    | .arr xs => simpa [extractFromItems] using htl
    | .obj fs =>
      match hij : jget (.obj fs) "json" (.obj []) with
      | .null | .bool _ | .num _ | .str _ | .arr _ =>
        rw [itemOk, hij] at hi; simp at hi
      | .obj js =>
        simp only [itemOk, hij] at hi
        simp only [extractFromItems, hij, Bind.bind, pyGetE, except_bind_ok]
        match hb0 : pyOr ((jlookup js "body").getD .null) (.obj js) with
        | .null => rw [hb0] at hi; simp at hi
        | .bool b => rw [hb0] at hi; simp at hi
        | .num n => rw [hb0] at hi; simp at hi
        | .str t => rw [hb0] at hi; simp at hi
        | .arr [] => rw [hb0] at hi; simp at hi
        | .obj bs =>
          rw [hb0] at hi
          have hi2 : (match pyOr ((jlookup bs "statuses").getD .null) (.arr []) with
              | JValue.arr ss => ss.all (statusObjOk mid)
              | _ => true) = true := hi
          match hst : pyOr ((jlookup bs "statuses").getD .null) (.arr []) with
          | .arr ss =>
            rw [hst] at hi2
            have hi3 : ss.all (statusObjOk mid) = true := hi2
            have hok := extractFromStatusList_ok eid mid wa ss hi3
            obtain ⟨hd, hhd⟩ := isOkE_ok hok
            simp only [isOkE, Bind.bind, Except.bind, htl2]
            rw [hst]
            simp [hhd]
          | .null => simp only [isOkE, Bind.bind, Except.bind, htl2]; rw [hst]
          | .bool b2 => simp only [isOkE, Bind.bind, Except.bind, htl2]; rw [hst]
          | .num n2 => simp only [isOkE, Bind.bind, Except.bind, htl2]; rw [hst]
          | .str t2 => simp only [isOkE, Bind.bind, Except.bind, htl2]; rw [hst]
          | .obj bs2 => simp only [isOkE, Bind.bind, Except.bind, htl2]; rw [hst]
        | .arr (x :: xs) =>
          rw [hb0] at hi
          match x with
          | .null => simp at hi
          | .bool b => simp at hi
          | .num n => simp at hi
          | .str t => simp at hi
          | .arr ys => simp at hi
          | .obj bs =>
            have hi2 : (match pyOr ((jlookup bs "statuses").getD .null) (.arr []) with
                | JValue.arr ss => ss.all (statusObjOk mid)
                | _ => true) = true := hi
            match hst : pyOr ((jlookup bs "statuses").getD .null) (.arr []) with
            | .arr ss =>
              rw [hst] at hi2
              have hi3 : ss.all (statusObjOk mid) = true := hi2
              have hok := extractFromStatusList_ok eid mid wa ss hi3
              obtain ⟨hd, hhd⟩ := isOkE_ok hok
              simp only [isOkE, Bind.bind, Except.bind, htl2]
              rw [hst]
              simp [hhd]
            | .null => simp only [isOkE, Bind.bind, Except.bind, htl2]; rw [hst]
            | .bool b2 => simp only [isOkE, Bind.bind, Except.bind, htl2]; rw [hst]
            | .num n2 => simp only [isOkE, Bind.bind, Except.bind, htl2]; rw [hst]
            | .str t2 => simp only [isOkE, Bind.bind, Except.bind, htl2]; rw [hst]
            | .obj bs2 => simp only [isOkE, Bind.bind, Except.bind, htl2]; rw [hst]

theorem extractFromMainItems_ok (eid mid wa : String) :
    ∀ elems : List JValue,
      elems.all (fun mi => match mi with
        | .arr its => its.all (itemOk mid)
        | _ => true) = true →
      isOkE (extractFromMainItems eid mid wa elems) = true := by
  intro elems
  induction elems with
  | nil => intro _; rfl
  | cons mi rest ih =>
    intro hall
    rw [List.all_cons, Bool.and_eq_true] at hall
    obtain ⟨hm, hrest⟩ := hall
    have htl := ih hrest
    obtain ⟨tl, htl2⟩ := isOkE_ok htl
    match mi with
    | .null => simpa [extractFromMainItems] using htl
    | .bool b => simpa [extractFromMainItems] using htl
    | .num n => simpa [extractFromMainItems] using htl
    | .str t => simpa [extractFromMainItems] using htl
    | .obj fs2 => simpa [extractFromMainItems] using htl
    | .arr its =>
      have hok := extractFromItems_ok eid mid wa its (by simpa using hm)
      obtain ⟨hd, hhd⟩ := isOkE_ok hok
      simp [extractFromMainItems, hhd, htl2, isOkE, Bind.bind, Except.bind]

theorem extractFromRuns_ok (eid mid wa : String) :
    ∀ runs : List JValue, runs.all (runOk mid) = true →
      isOkE (extractFromRuns eid mid wa runs) = true := by
  intro runs
  induction runs with
  | nil => intro _; rfl
  | cons run rest ih =>
    intro hall
    rw [List.all_cons, Bool.and_eq_true] at hall
    obtain ⟨hr, hrest⟩ := hall
    have htl := ih hrest
    obtain ⟨tl, htl2⟩ := isOkE_ok htl
    match run with
    | .null => simpa [extractFromRuns] using htl
    | .bool b => simpa [extractFromRuns] using htl
    | .num n => simpa [extractFromRuns] using htl
    | .str t => simpa [extractFromRuns] using htl
    | .arr xs => simpa [extractFromRuns] using htl
    | .obj fs =>
      rw [runOk] at hr
      simp only [extractFromRuns, pyGetDE, Bind.bind, except_bind_ok]
      match hd : jlookup fs "data" with
      | none =>
        simp only [hd, Option.getD]
        show isOkE (Except.bind (extractFromRuns eid mid wa rest)
          (fun tail => Except.ok ([] ++ tail))) = true
        rw [htl2]
        rfl
      | some dv =>
        rw [hd] at hr
        match dv with
        | .null => simp at hr
        | .bool b => simp at hr
        | .num n => simp at hr
        | .str t => simp at hr
        | .arr xs => simp at hr
        | .obj rd =>
          have hr2 : (match pyIterE (pyOr ((jlookup rd "main").getD .null) (.arr [])) with
              | Except.ok elems => elems.all (fun mi => match mi with
                  | JValue.arr items => items.all (itemOk mid)
                  | _ => true)
              | Except.error _ => false) = true := hr
          simp only [hd, Option.getD, pyGetE, except_bind_ok]
          match hiter : pyIterE (pyOr ((jlookup rd "main").getD .null) (.arr [])) with
          | .error e =>
            rw [hiter] at hr2
            simp at hr2
          | .ok elems =>
            rw [hiter] at hr2
            have hr3 : elems.all (fun mi => match mi with
                | JValue.arr items => items.all (itemOk mid)
                | _ => true) = true := hr2
            have hok := extractFromMainItems_ok eid mid wa elems hr3
            obtain ⟨hd2, hhd2⟩ := isOkE_ok hok
            simp [hhd2, htl2, isOkE, Bind.bind, Except.bind, except_bind_ok]

theorem extractFromNodes_ok (eid mid wa : String) :
    ∀ entries : List (String × JValue),
      entries.all (fun p => match p.2 with
        | .arr runs => runs.all (runOk mid)
        | _ => true) = true →
      isOkE (extractFromNodes eid mid wa entries) = true := by
  intro entries
  induction entries with
  | nil => intro _; rfl
  | cons p rest ih =>
    intro hall
    rw [List.all_cons, Bool.and_eq_true] at hall
    obtain ⟨hp, hrest⟩ := hall
    have htl := ih hrest
    obtain ⟨tl, htl2⟩ := isOkE_ok htl
    obtain ⟨name, node_runs⟩ := p
    match node_runs with
    | .null => simpa [extractFromNodes] using htl
    | .bool b => simpa [extractFromNodes] using htl
    | .num n => simpa [extractFromNodes] using htl
    | .str t => simpa [extractFromNodes] using htl
    | .obj fs => simpa [extractFromNodes] using htl
    | .arr runs =>
      have hok := extractFromRuns_ok eid mid wa runs (by simpa using hp)
      obtain ⟨hd, hhd⟩ := isOkE_ok hok
      simp [extractFromNodes, hhd, htl2, isOkE, Bind.bind, Except.bind]

theorem extract_status_updates_ok (e : JValue) (mid wa : String)
    (h : executionOk mid e = true) :
    isOkE (extract_status_updates e mid wa) = true := by
  match e with
  | .null | .bool _ | .num _ | .str _ | .arr _ => simp [executionOk] at h
  | .obj fs =>
    rw [executionOk] at h
    simp only [extract_status_updates, pyGetDE, pyGetE, Bind.bind, except_bind_ok]
    match hed : pyOr (jget (.obj fs) "data" .null)
        (pyOr (jget (.obj fs) "executionData" .null) (.obj [])) with
    | .null => rw [hed] at h; simp at h
    | .bool b => rw [hed] at h; simp at h
    | .num n => rw [hed] at h; simp at h
    | .str t => rw [hed] at h; simp at h
    | .arr xs => rw [hed] at h; simp at h
    | .obj ed =>
      rw [hed] at h
      have h2 : (match pyOr ((jlookup ed "resultData").getD .null) (.obj []) with
          | JValue.obj rd =>
            (match pyOr ((jlookup rd "runData").getD .null) (.obj []) with
              | JValue.obj entries => entries.all (fun p => match p.2 with
                  | JValue.arr runs => runs.all (runOk mid)
                  | _ => true)
              | _ => false)
          | _ => false) = true := h
      simp only [pyGetE, except_bind_ok]
      match hrd : pyOr ((jlookup ed "resultData").getD .null) (.obj []) with
      | .null => rw [hrd] at h2; simp at h2
      | .bool b => rw [hrd] at h2; simp at h2
      | .num n => rw [hrd] at h2; simp at h2
      | .str t => rw [hrd] at h2; simp at h2
      | .arr xs => rw [hrd] at h2; simp at h2
      | .obj rd =>
        rw [hrd] at h2
        have h3 : (match pyOr ((jlookup rd "runData").getD .null) (.obj []) with
            | JValue.obj entries => entries.all (fun p => match p.2 with
                | JValue.arr runs => runs.all (runOk mid)
                | _ => true)
            | _ => false) = true := h2
        simp only [pyGetE, except_bind_ok]
        match hrn : pyOr ((jlookup rd "runData").getD .null) (.obj []) with
        | .null => rw [hrn] at h3; simp at h3
        | .bool b => rw [hrn] at h3; simp at h3
        | .num n => rw [hrn] at h3; simp at h3
        | .str t => rw [hrn] at h3; simp at h3
        | .arr xs => rw [hrn] at h3; simp at h3
        | .obj entries =>
          rw [hrn] at h3
          have h4 : entries.all (fun p => match p.2 with
              | JValue.arr runs => runs.all (runOk mid)
              | _ => true) = true := h3
          have hok := extractFromNodes_ok (jstr (jget (.obj fs) "id" (.str "unknown")))
            mid wa entries h4
          simpa [pyItemsE, isOkE] using hok

/-!  Claim C6. -/

/-- C6 (amended): on the tolerated shape class — every unguarded
dereference level (execution data / executionData, resultData, runData, a
run's `data` entry, its `main` output, an item's `json`, the effective
webhook body) is either absent/falsy or of the expected type, the guarded
levels (node runs, run, main item, item, statuses, status object) may be
anything, and matched status timestamps fit the platform time range — the
extractor returns a (possibly empty) list of events without raising; and
when it does raise (see the counterexample), the surrounding scan catches
the exception and continues with the next execution, contributing zero
events from that execution rather than aborting. -/
theorem c6_extractor_tolerance :
    (∀ (e : JValue) (mid wa : String), executionOk mid e = true →
      ∃ l, extract_status_updates e mid wa = .ok l) ∧
    (∀ (mid wa : String) (since : Option Int) (ex : JValue) (rest : List JValue)
        (err : String),
      extract_status_updates ex mid wa = .error err →
      track_scan_loop mid wa since (ex :: rest) =
        ((track_scan_loop mid wa since rest).1,
         (track_scan_loop mid wa since rest).2 + 1)) := by
  constructor
  · intro e mid wa h
    exact isOkE_ok (extract_status_updates_ok e mid wa h)
  · intro mid wa since ex rest err herr
    simp only [track_scan_loop, herr]

/-- C6 counterexample: a truthy but wrongly-typed `data` level makes the
extractor raise (`"x".get("resultData")` is an `AttributeError`), so "the
status extractor returns a (possibly empty) list of events without
raising" is false as stated — the recovery happens in the caller, not in
the extractor. -/
theorem c6_counterexample :
    extract_status_updates (.obj [("data", .str "x")]) "m" "w" =
      .error ("AttributeError: object has no attribute get " ++ "resultData") ∧
    ∀ l, extract_status_updates (.obj [("data", .str "x")]) "m" "w" ≠ .ok l := by
  refine ⟨rfl, ?_⟩
  intro l h
  rw [(rfl : extract_status_updates (.obj [("data", .str "x")]) "m" "w" =
    .error ("AttributeError: object has no attribute get " ++ "resultData"))] at h
  exact Except.noConfusion h

/-- C6 witness: the tolerance conjunct applied to the concrete well-shaped
execution of the scenario, and the scan-recovery conjunct applied to a
concrete malformed execution. -/
theorem c6_extractor_tolerance_witness :
    (∃ l, extract_status_updates exRead "m1" "w1" = .ok l) ∧
    track_scan_loop "m" "w" none [.obj [("data", .str "x")]] =
      ((track_scan_loop "m" "w" none []).1, (track_scan_loop "m" "w" none []).2 + 1) := by
  constructor
  · exact c6_extractor_tolerance.1 exRead "m1" "w1" (by decide)
  · exact c6_extractor_tolerance.2 "m" "w" none (.obj [("data", .str "x")]) [] _ rfl
